import Mathlib

/-!
# Library service (`backend/main.go`): handlers, middleware and the store they talk to

The Go handlers are embedded as functions from a response writer, a request and
the state of the world behind the `*sql.DB` handle to an outcome.  `log.Fatal`
ends the process, so an outcome is either `exit` or `done` with the response.
-/

namespace Library

/-! ## Records (`main.go`, lines 14-28) -/

/-- The Go struct `Author`. -/
structure Author where
  ID : Int
  Name : String
  Surname : String
  Biography : String
  Birthday : String
deriving DecidableEq, Repr

/-- The Go struct `Book`. -/
structure Book where
  ID : Int
  Title : String
  AuthorID : String
  ISBN : String
  Year : String
deriving DecidableEq, Repr

/-! ## `net/http`: requests, response writers, handlers -/

/-- A value handed to `json.NewEncoder(w).Encode`. -/
inductive Encoded where
  | author (a : Author)
  | authors (l : List Author)
  | book (b : Book)
  | books (l : List Book)
  | text (s : String)
deriving DecidableEq, Repr

/-- The request as the handlers read it: method, URL path, the route variables
of `mux.Vars(r)`, and the body by what `json.NewDecoder(r.Body).Decode(&v)`
leaves in a zero-valued `v` of either record type (every handler drops the
decode error). -/
structure Request where
  Method : String
  Path : String
  Vars : List (String × String)
  BodyAuthor : Author
  BodyBook : Book
deriving DecidableEq, Repr

/-- The response under construction: header map, status line once written, and
the values encoded to the body so far. -/
structure ResponseWriter where
  Header : List (String × String)
  Code : Option Nat
  Body : List Encoded
deriving DecidableEq, Repr

/-- The writer a server hands to the outermost handler. -/
def ResponseWriter.fresh : ResponseWriter := ⟨[], none, []⟩

/-- The call `w.Header().Set(k, v)`: the entry for `k` is replaced. -/
def ResponseWriter.Set (w : ResponseWriter) (k v : String) : ResponseWriter :=
  { w with Header := (k, v) :: w.Header.filter (fun e => e.1 ≠ k) }

/-- The call `w.Header().Get(k)`: the empty string when `k` is not set. -/
def ResponseWriter.Get (w : ResponseWriter) (k : String) : String :=
  match w.Header.lookup k with
  | some v => v
  | none => ""

/-- The call `w.WriteHeader(code)`: only the first status line counts. -/
def ResponseWriter.WriteHeader (w : ResponseWriter) (code : Nat) : ResponseWriter :=
  match w.Code with
  | none => { w with Code := some code }
  | some _ => w

/-- The call `json.NewEncoder(w).Encode(v)`: a write, which sends status 200
first when no status line was written. -/
def ResponseWriter.Encode (w : ResponseWriter) (v : Encoded) : ResponseWriter :=
  { (w.WriteHeader 200) with Body := w.Body ++ [v] }

/-- The status the client sees: 200 when the handler returned without writing. -/
def ResponseWriter.Status (w : ResponseWriter) : Nat :=
  match w.Code with
  | some c => c
  | none => 200

/-- The route variable `mux.Vars(r)[k]`, the empty string when absent. -/
def Request.Var (r : Request) (k : String) : String :=
  match r.Vars.lookup k with
  | some v => v
  | none => ""

/-- How a handler call ends: `exit` is `log.Fatal` (the process is gone and no
response is sent), `done` is a normal return. -/
inductive Outcome (σ : Type) where
  | exit (s : σ)
  | done (w : ResponseWriter) (s : σ)
deriving DecidableEq, Repr

/-- An `http.Handler` over a world of type `σ`. -/
abbrev Handler (σ : Type) := ResponseWriter → Request → σ → Outcome σ

/-- The response of an outcome, when there is one. -/
def Outcome.response {σ : Type} : Outcome σ → Option ResponseWriter
  | .exit _ => none
  | .done w _ => some w

/-- The world an outcome leaves behind. -/
def Outcome.world {σ : Type} : Outcome σ → σ
  | .exit s => s
  | .done _ s => s

/-- Whether the process was terminated. -/
def Outcome.exited {σ : Type} : Outcome σ → Bool
  | .exit _ => true
  | .done _ _ => false

/-! ## Middleware (`main.go`, lines 89-114) -/

/-- The middleware `enableCORS`. -/
def enableCORS {σ : Type} (next : Handler σ) : Handler σ := fun w r s =>
  let w := w.Set "Access-Control-Allow-Origin" "*"
  let w := w.Set "Access-Control-Allow-Methods" "GET, POST, PUT, DELETE, OPTIONS"
  let w := w.Set "Access-Control-Allow-Headers" "Content-Type"
  if r.Method = "OPTIONS" then
    .done (w.WriteHeader 200) s
  else
    next w r s

/-- The middleware `jsonContentTypeMiddleware`. -/
def jsonContentTypeMiddleware {σ : Type} (next : Handler σ) : Handler σ := fun w r s =>
  let w := w.Set "Content-Type" "application/json"
  next w r s

/-- A handler instrumented with a call counter, to count invocations. -/
def counted {σ : Type} (next : Handler σ) : Handler (Nat × σ) := fun w r s =>
  match next w r s.2 with
  | .exit t => .exit (s.1 + 1, t)
  | .done w t => .done w (s.1 + 1, t)

/-! ## The store behind `db *sql.DB`

`main` creates two tables (lines 53 and 57):
`authors (id SERIAL PRIMARY KEY, name TEXT, surname TEXT, biography TEXT, birthday DATE)`
and `books (id SERIAL PRIMARY KEY, title TEXT, authorid INTEGER, isbn TEXT, year INTEGER)`.
The handlers bind Go strings to every parameter, so the store converts text to
`INTEGER` and `DATE` on the way in and `Scan` converts back on the way out. -/

/-- What the handle fixes about the store and the source leaves open: how text
bound to an `INTEGER` parameter is read (`none`: the store rejects it), how text
bound to a `DATE` parameter is read, given by the text `Scan` later yields for
the stored date, and whether an `UPDATE` keeps the row at its place in the scan
order of a `SELECT` without `ORDER BY` or writes the new version behind the rows
that are already there. -/
structure DB where
  integer : String → Option Int
  date : String → Option String
  inPlace : Bool

/-- A row of `authors`.  Only `id`, the primary key, is declared so that it
cannot be NULL; `none` is NULL.  The birthday is kept as the text `Scan` yields
for the stored date. -/
structure AuthorRow where
  id : Int
  name : Option String
  surname : Option String
  biography : Option String
  birthday : Option String
deriving DecidableEq, Repr

/-- A row of `books`; `none` is NULL. -/
structure BookRow where
  id : Int
  title : Option String
  authorid : Option Int
  isbn : Option String
  year : Option Int
deriving DecidableEq, Repr

/-- The database: both tables in the order a scan yields their rows, the next
values of the two `SERIAL` sequences, and the `id` column of a relation `users`
when the database has one (`main` creates none). -/
structure Store where
  authors : List AuthorRow
  books : List BookRow
  authorsSeq : Int
  booksSeq : Int
  users : Option (List Int)
deriving DecidableEq, Repr

/-- The world a handler runs in: the database, and for each coming round trip to
the store whether the connection fails on it (no entry: it does not). -/
structure World where
  store : Store
  faults : List Bool
deriving DecidableEq, Repr

/-- The errors a statement can come back with. -/
inductive SqlError where
  | connection
  | invalidText
  | noRows
  | undefinedTable
  | uniqueViolation
  | outOfRange
  | nullValue
deriving DecidableEq, Repr

/-- One round trip: the statement runs against the database unless the
connection fails on it. -/
def World.run {α : Type} (c : World) (stmt : Store → Except SqlError α × Store) :
    Except SqlError α × World :=
  match c.faults with
  | true :: fs => (.error .connection, { c with faults := fs })
  | false :: fs => ((stmt c.store).1, { store := (stmt c.store).2, faults := fs })
  | [] => ((stmt c.store).1, { store := (stmt c.store).2, faults := [] })

/-- Decimal digits of a natural number, most significant first (`fuel` bounds
the number of digits). -/
def digits : Nat → Nat → List Char
  | 0, _ => []
  | fuel + 1, n =>
    if n < 10 then [Char.ofNat (48 + n)]
    else digits fuel (n / 10) ++ [Char.ofNat (48 + n % 10)]

/-- The text `Scan` writes into a Go string for an integer column
(`strconv.FormatInt(v, 10)`). -/
def formatInt (v : Int) : String :=
  match v with
  | .ofNat n => String.mk (digits (n + 1) n)
  | .negSucc n => String.mk ('-' :: digits (n + 2) (n + 1))

/-- `Scan` of a row of `authors` into the fields of an `Author`: it fails
(`none`) on a NULL, which does not go into a Go string. -/
def scanAuthor (row : AuthorRow) : Option Author :=
  match row.name, row.surname, row.biography, row.birthday with
  | some name, some surname, some biography, some birthday =>
    some ⟨row.id, name, surname, biography, birthday⟩
  | _, _, _, _ => none

/-- `Scan` of a row of `books` into the fields of a `Book`: the integer columns
land in Go strings, and a NULL fails. -/
def scanBook (row : BookRow) : Option Book :=
  match row.title, row.authorid, row.isbn, row.year with
  | some title, some authorid, some isbn, some year =>
    some ⟨row.id, title, formatInt authorid, isbn, formatInt year⟩
  | _, _, _, _ => none

/-- The loop `for rows.Next() { rows.Scan(...); authors = append(authors, a) }`
of `getAuthors`: `none` when a `Scan` fails. -/
def scanAuthors : List AuthorRow → List Author → Option (List Author)
  | [], authors => some authors
  | row :: rows, authors =>
    match scanAuthor row with
    | none => none
    | some a => scanAuthors rows (authors ++ [a])

/-- The loop of `getBooks`. -/
def scanBooks : List BookRow → List Book → Option (List Book)
  | [], books => some books
  | row :: rows, books =>
    match scanBook row with
    | none => none
    | some b => scanBooks rows (books ++ [b])

/-- The largest value of an `INTEGER` (and so of a `SERIAL`) column. -/
def maxInteger : Int := 2147483647

/-- The rows an `UPDATE ... WHERE p` leaves: each matching row is rewritten by
`f`, at its place or behind the rows that did not match. -/
def updateRows {α : Type} (inPlace : Bool) (p : α → Bool) (f : α → α) (rows : List α) : List α :=
  if inPlace then rows.map (fun r => if p r then f r else r)
  else rows.filter (fun r => !p r) ++ (rows.filter p).map f

/-! ### The statements of the handlers -/

/-- Statement `SELECT * FROM authors`. -/
def selectAuthors (s : Store) : Except SqlError (List AuthorRow) × Store :=
  (.ok s.authors, s)

/-- Statement `SELECT * FROM books`. -/
def selectBooks (s : Store) : Except SqlError (List BookRow) × Store :=
  (.ok s.books, s)

/-- Statement `SELECT * FROM authors WHERE id = $1` with its
`QueryRow(...).Scan(&a.ID, ...)`: the first row scanned into an `Author`,
`sql.ErrNoRows` when there is none, the error of `Scan` when the row holds a
NULL. -/
def selectAuthor (db : DB) (id : String) (s : Store) : Except SqlError Author × Store :=
  match db.integer id with
  | none => (.error .invalidText, s)
  | some k =>
    match s.authors.find? (fun row => row.id = k) with
    | none => (.error .noRows, s)
    | some row =>
      match scanAuthor row with
      | none => (.error .nullValue, s)
      | some a => (.ok a, s)

/-- Statement `SELECT * FROM books WHERE id = $1` with its
`QueryRow(...).Scan(&b.ID, ...)`. -/
def selectBook (db : DB) (id : String) (s : Store) : Except SqlError Book × Store :=
  match db.integer id with
  | none => (.error .invalidText, s)
  | some k =>
    match s.books.find? (fun row => row.id = k) with
    | none => (.error .noRows, s)
    | some row =>
      match scanBook row with
      | none => (.error .nullValue, s)
      | some b => (.ok b, s)

/-- Statement `INSERT INTO authors (name, surname, biography, birthday) VALUES
($1, $2, $3, $4) RETURNING id`: the id is the next value of the sequence, which
stays consumed when the primary key rejects the row. -/
def insertAuthor (db : DB) (a : Author) (s : Store) : Except SqlError Int × Store :=
  match db.date a.Birthday with
  | none => (.error .invalidText, s)
  | some d =>
    let id := s.authorsSeq
    let s := { s with authorsSeq := id + 1 }
    if maxInteger < id then (.error .outOfRange, s)
    else if s.authors.any (fun row => row.id = id) then (.error .uniqueViolation, s)
    else (.ok id, { s with authors := s.authors ++ [⟨id, some a.Name, some a.Surname, some a.Biography, some d⟩] })

/-- Statement `INSERT INTO books (title, authorid, isbn, year) VALUES ($1, $2,
$3, $4) RETURNING id`. -/
def insertBook (db : DB) (b : Book) (s : Store) : Except SqlError Int × Store :=
  match db.integer b.AuthorID, db.integer b.Year with
  | some authorid, some year =>
    let id := s.booksSeq
    let s := { s with booksSeq := id + 1 }
    if maxInteger < id then (.error .outOfRange, s)
    else if s.books.any (fun row => row.id = id) then (.error .uniqueViolation, s)
    else (.ok id, { s with books := s.books ++ [⟨id, some b.Title, some authorid, some b.ISBN, some year⟩] })
  | _, _ => (.error .invalidText, s)

/-- Statement `UPDATE authors SET name = $1, surname = $2,biography=$3, birthday
= $4  WHERE id = $5`, run by `Exec`: the result is the number of rows affected,
and no row matching is no error. -/
def updateAuthorRow (db : DB) (a : Author) (id : String) (s : Store) : Except SqlError Nat × Store :=
  match db.date a.Birthday, db.integer id with
  | some d, some k =>
    (.ok (s.authors.countP (fun row => row.id = k)),
      { s with authors := (updateRows db.inPlace (fun row => row.id = k)
          (fun row => ⟨row.id, some a.Name, some a.Surname, some a.Biography, some d⟩) s.authors) })
  | _, _ => (.error .invalidText, s)

/-- Statement `UPDATE books SET title = $1, authorid = $2, isbn=$3, year = $4
WHERE id = $5`, run by `Exec`. -/
def updateBookRow (db : DB) (b : Book) (id : String) (s : Store) : Except SqlError Nat × Store :=
  match db.integer b.AuthorID, db.integer b.Year, db.integer id with
  | some authorid, some year, some k =>
    (.ok (s.books.countP (fun row => row.id = k)),
      { s with books := (updateRows db.inPlace (fun row => row.id = k)
          (fun row => ⟨row.id, some b.Title, some authorid, some b.ISBN, some year⟩) s.books) })
  | _, _, _ => (.error .invalidText, s)

/-- Statement `DELETE FROM users WHERE id = $1`, run by `Exec`: it names the
relation `users`, not `authors`. -/
def deleteUsersRow (db : DB) (id : String) (s : Store) : Except SqlError Nat × Store :=
  match s.users with
  | none => (.error .undefinedTable, s)
  | some ids =>
    match db.integer id with
    | none => (.error .invalidText, s)
    | some k => (.ok (ids.countP (fun i => i = k)), { s with users := some (ids.filter (fun i => i ≠ k)) })

/-- Statement `DELETE FROM books WHERE id = $1`, run by `Exec`. -/
def deleteBookRow (db : DB) (id : String) (s : Store) : Except SqlError Nat × Store :=
  match db.integer id with
  | none => (.error .invalidText, s)
  | some k =>
    (.ok (s.books.countP (fun row => row.id = k)),
      { s with books := s.books.filter (fun row => row.id ≠ k) })

/-! ## Handlers (`main.go`, lines 116-331) -/

/-- Handler `getAuthors`: the loop appends one `Author` per row the query
yields; `log.Fatal` on an error of the query (that of `rows.Err()` belongs to
the same round trip) and on an error of a `Scan`. -/
def getAuthors (_db : DB) : Handler World := fun w _r c =>
  match c.run selectAuthors with
  | (.error _, c) => .exit c
  | (.ok rows, c) =>
    match scanAuthors rows [] with
    | none => .exit c
    | some authors => .done (w.Encode (.authors authors)) c

/-- Handler `getAuthor`: any error of the query or its `Scan` is answered 404. -/
def getAuthor (db : DB) : Handler World := fun w r c =>
  let id := r.Var "id"
  match c.run (selectAuthor db id) with
  | (.error _, c) => .done (w.WriteHeader 404) c
  | (.ok a, c) => .done (w.Encode (.author a)) c

/-- Handler `createAuthor`: the record sent back is the decoded one with the
returned id. -/
def createAuthor (db : DB) : Handler World := fun w r c =>
  let a := r.BodyAuthor
  match c.run (insertAuthor db a) with
  | (.error _, c) => .exit c
  | (.ok id, c) => .done (w.Encode (.author { a with ID := id })) c

/-- Handler `updateAuthor`: `log.Fatal` on an error of the `UPDATE` and on any
error of the re-read, `sql.ErrNoRows` included. -/
def updateAuthor (db : DB) : Handler World := fun w r c =>
  let a := r.BodyAuthor
  let id := r.Var "id"
  match c.run (updateAuthorRow db a id) with
  | (.error _, c) => .exit c
  | (.ok _, c) =>
    match c.run (selectAuthor db id) with
    | (.error _, c) => .exit c
    | (.ok a, c) => .done (w.Encode (.author a)) c

/-- Handler `deleteUser` (commented "удалить автора"): looks the author up, then
deletes from `users`. -/
def deleteUser (db : DB) : Handler World := fun w r c =>
  let id := r.Var "id"
  match c.run (selectAuthor db id) with
  | (.error _, c) => .done (w.WriteHeader 404) c
  | (.ok _, c) =>
    match c.run (deleteUsersRow db id) with
    | (.error _, c) => .done (w.WriteHeader 404) c
    | (.ok _, c) => .done (w.Encode (.text "Автор удален")) c

/-- Handler `getBooks`. -/
def getBooks (_db : DB) : Handler World := fun w _r c =>
  match c.run selectBooks with
  | (.error _, c) => .exit c
  | (.ok rows, c) =>
    match scanBooks rows [] with
    | none => .exit c
    | some books => .done (w.Encode (.books books)) c

/-- Handler `getBook`. -/
def getBook (db : DB) : Handler World := fun w r c =>
  let id := r.Var "id"
  match c.run (selectBook db id) with
  | (.error _, c) => .done (w.WriteHeader 404) c
  | (.ok b, c) => .done (w.Encode (.book b)) c

/-- Handler `createBook`. -/
def createBook (db : DB) : Handler World := fun w r c =>
  let b := r.BodyBook
  match c.run (insertBook db b) with
  | (.error _, c) => .exit c
  | (.ok id, c) => .done (w.Encode (.book { b with ID := id })) c

/-- Handler `updateBook`. -/
def updateBook (db : DB) : Handler World := fun w r c =>
  let b := r.BodyBook
  let id := r.Var "id"
  match c.run (updateBookRow db b id) with
  | (.error _, c) => .exit c
  | (.ok _, c) =>
    match c.run (selectBook db id) with
    | (.error _, c) => .exit c
    | (.ok b, c) => .done (w.Encode (.book b)) c

/-- Handler `deleteBook`. -/
def deleteBook (db : DB) : Handler World := fun w r c =>
  let id := r.Var "id"
  match c.run (selectBook db id) with
  | (.error _, c) => .done (w.WriteHeader 404) c
  | (.ok _, c) =>
    match c.run (deleteBookRow db id) with
    | (.error _, c) => .done (w.WriteHeader 404) c
    | (.ok _, c) => .done (w.Encode (.text "книга удалена")) c

/-! ## The router of `main` (lines 63-83) -/

/-- The eleven routes `main` registers, by the handler each names. -/
inductive Route where
  | getAuthors | createAuthor | getAuthor | updateAuthor | deleteAuthor
  | getBooks | createBook | getBook | updateBook | deleteBook
  | updateBookAndAuthor
deriving DecidableEq, Repr

/-- The pieces of a text between the occurrences of a separator. -/
def splitOn (sep : Char) : List Char → List (List Char)
  | [] => [[]]
  | c :: cs =>
    if c = sep then [] :: splitOn sep cs
    else
      match splitOn sep cs with
      | [] => [[c]]
      | seg :: segs => (c :: seg) :: segs

/-- Whether a segment can stand for a `{variable}` of a template: it is not
empty, and the router only matches clean paths. -/
def isVar (seg : List Char) : Bool :=
  seg ≠ [] && seg ≠ ['.'] && seg ≠ ['.', '.']

/-- The route a method and a path select among the templates
`/api/go/authors`, `/api/go/authors/{id}`, `/api/go/books`, `/api/go/books/{id}`
and `/api/go/books/{book_id}/authors/{author_id}`, with the route variables. -/
def mux (method path : String) : Option (Route × List (String × String)) :=
  match (splitOn '/' path.data).map String.mk with
  | ["", "api", "go", "authors"] =>
    if method = "GET" then some (.getAuthors, [])
    else if method = "POST" then some (.createAuthor, [])
    else none
  | ["", "api", "go", "authors", id] =>
    if !isVar id.data then none
    else if method = "GET" then some (.getAuthor, [("id", id)])
    else if method = "PUT" then some (.updateAuthor, [("id", id)])
    else if method = "DELETE" then some (.deleteAuthor, [("id", id)])
    else none
  | ["", "api", "go", "books"] =>
    if method = "GET" then some (.getBooks, [])
    else if method = "POST" then some (.createBook, [])
    else none
  | ["", "api", "go", "books", id] =>
    if !isVar id.data then none
    else if method = "GET" then some (.getBook, [("id", id)])
    else if method = "PUT" then some (.updateBook, [("id", id)])
    else if method = "DELETE" then some (.deleteBook, [("id", id)])
    else none
  | ["", "api", "go", "books", bookID, "authors", authorID] =>
    if !isVar bookID.data || !isVar authorID.data then none
    else if method = "PUT" then
      some (.updateBookAndAuthor, [("book_id", bookID), ("author_id", authorID)])
    else none
  | _ => none

/-- The handler behind a route.  `main` names `deleteAuthor(db)` and
`updateBookAndAuthor(db)`, which the file does not define: they are taken as
given. -/
def Route.handler (db : DB) (deleteAuthor updateBookAndAuthor : Handler World) :
    Route → Handler World
  | .getAuthors => Library.getAuthors db
  | .createAuthor => Library.createAuthor db
  | .getAuthor => Library.getAuthor db
  | .updateAuthor => Library.updateAuthor db
  | .deleteAuthor => deleteAuthor
  | .getBooks => Library.getBooks db
  | .createBook => Library.createBook db
  | .getBook => Library.getBook db
  | .updateBook => Library.updateBook db
  | .deleteBook => Library.deleteBook db
  | .updateBookAndAuthor => updateBookAndAuthor

/-- The router: the handler of the matching route, else what the routing
library answers on its own (`fallback`: not found, method not allowed,
redirect of an unclean path). -/
def router (db : DB) (deleteAuthor updateBookAndAuthor fallback : Handler World) :
    Handler World := fun w r c =>
  match mux r.Method r.Path with
  | some (route, vars) =>
    route.handler db deleteAuthor updateBookAndAuthor w { r with Vars := vars } c
  | none => fallback w r c

/-- The handler `main` serves: `enableCORS(jsonContentTypeMiddleware(router))`. -/
def enhancedRouter (db : DB) (deleteAuthor updateBookAndAuthor fallback : Handler World) :
    Handler World :=
  enableCORS (jsonContentTypeMiddleware (router db deleteAuthor updateBookAndAuthor fallback))

/-! ## A concrete store

Used to run the handlers on concrete inputs: integers in decimal, dates as
`Y-M-D`, yielded back as `YYYY-MM-DDT00:00:00Z`. -/

/-- The number a non-empty run of decimal digits stands for. -/
def readNat (cs : List Char) : Option Nat :=
  if cs = [] then none
  else cs.foldl (fun acc c =>
    match acc with
    | some n => if c.isDigit then some (10 * n + (c.toNat - 48)) else none
    | none => none) (some 0)

/-- Decimal integer input with an optional sign, within the range of `INTEGER`. -/
def readInteger (s : String) : Option Int :=
  let v : Option Int :=
    match s.data with
    | '-' :: cs => (readNat cs).map (fun n => - (n : Int))
    | '+' :: cs => (readNat cs).map (fun n => (n : Int))
    | cs => (readNat cs).map (fun n => (n : Int))
  match v with
  | some k => if -2147483648 ≤ k ∧ k ≤ 2147483647 then some k else none
  | none => none

/-- Days of a month of the Gregorian calendar. -/
def daysInMonth (y m : Nat) : Nat :=
  if m = 2 then (if y % 4 = 0 ∧ (y % 100 ≠ 0 ∨ y % 400 = 0) then 29 else 28)
  else if m = 4 ∨ m = 6 ∨ m = 9 ∨ m = 11 then 30
  else 31

/-- A number in at least `width` decimal digits. -/
def padded (width n : Nat) : List Char :=
  let ds := digits (n + 1) n
  List.replicate (width - ds.length) '0' ++ ds

/-- Date input `Y-M-D`; the value is the text `Scan` writes into a Go string
for the date: the driver hands the date over as a `time.Time` at midnight UTC,
which `database/sql` formats as `YYYY-MM-DDT00:00:00Z`. -/
def readDate (s : String) : Option String :=
  match (splitOn '-' s.data).map readNat with
  | [some y, some m, some d] =>
    if 1 ≤ y ∧ 1 ≤ m ∧ m ≤ 12 ∧ 1 ≤ d ∧ d ≤ daysInMonth y m then
      some (String.mk (padded 4 y ++ '-' :: padded 2 m ++ '-' :: padded 2 d ++ "T00:00:00Z".data))
    else none
  | _ => none

/-- A store that writes the new version of an updated row behind the rows that
are already there. -/
def heapStore : DB := ⟨readInteger, readDate, false⟩

/-- A store that rewrites an updated row at its place. -/
def inPlaceStore : DB := ⟨readInteger, readDate, true⟩

/-- The database right after `main` created the two empty tables. -/
def Store.empty : Store := ⟨[], [], 1, 1, none⟩

/-! ## The joint update (`main.go`, line 80) -/

/-- The step at which a joint update failed. -/
inductive TxError where
  | begin (e : SqlError)
  | bookUpdate (e : SqlError)
  | authorUpdate (e : SqlError)
  | commit (e : SqlError)
  | reread (e : SqlError)
deriving DecidableEq, Repr

/-- Modelled from the spec: `updateBookAndAuthor` is registered by `main` (line
80) and defined nowhere in the file.  Section 4.2 gives the contract
`updateBookAndAuthor(bookID, authorID, newBookFields, newAuthorFields) →
(updatedBook, updatedAuthor) | error` and the algorithm: begin a transaction,
run the book update, run the author update, commit when both succeeded, roll
back when a statement or the commit failed, re-read both rows after the commit.
A statement that finds no row counts as failed, which is what the scenario of
section 8 (author 999 does not exist, the book update must not show) asks for.
Rolling back puts the database back as it was when the transaction began. -/
def updateBookAndAuthor (db : DB) (bookID authorID : String) (newBookFields : Book)
    (newAuthorFields : Author) (c : World) : Except TxError (Book × Author) × World :=
  match c.run (fun s => (Except.ok (), s)) with
  | (.error e, c) => (.error (.begin e), c)
  | (.ok _, c) =>
    let begun := c.store
    match c.run (updateBookRow db newBookFields bookID) with
    | (.error e, c) => (.error (.bookUpdate e), { c with store := begun })
    | (.ok 0, c) => (.error (.bookUpdate .noRows), { c with store := begun })
    | (.ok (_ + 1), c) =>
      match c.run (updateAuthorRow db newAuthorFields authorID) with
      | (.error e, c) => (.error (.authorUpdate e), { c with store := begun })
      | (.ok 0, c) => (.error (.authorUpdate .noRows), { c with store := begun })
      | (.ok (_ + 1), c) =>
        match c.run (fun s => (Except.ok (), s)) with
        | (.error e, c) => (.error (.commit e), { c with store := begun })
        | (.ok _, c) =>
          match c.run (selectBook db bookID) with
          | (.error e, c) => (.error (.reread e), c)
          | (.ok book, c) =>
            match c.run (selectAuthor db authorID) with
            | (.error e, c) => (.error (.reread e), c)
            | (.ok author, c) => (.ok (book, author), c)

/-! ## Sequences of calls -/

/-- The zero value of `Author`. -/
def Author.zero : Author := ⟨0, "", "", "", ""⟩

/-- The zero value of `Book`. -/
def Book.zero : Book := ⟨0, "", "", "", ""⟩

/-- A call of one of the create, update and delete handlers. -/
inductive Op where
  | createAuthor (a : Author)
  | updateAuthor (id : String) (a : Author)
  | deleteAuthor (id : String)
  | createBook (b : Book)
  | updateBook (id : String) (b : Book)
  | deleteBook (id : String)
deriving DecidableEq, Repr

/-- The request of a call, as the router hands it to the handler. -/
def Op.request : Op → Request
  | .createAuthor a => ⟨"POST", "/api/go/authors", [], a, Book.zero⟩
  | .updateAuthor id a => ⟨"PUT", "/api/go/authors/" ++ id, [("id", id)], a, Book.zero⟩
  | .deleteAuthor id => ⟨"DELETE", "/api/go/authors/" ++ id, [("id", id)], Author.zero, Book.zero⟩
  | .createBook b => ⟨"POST", "/api/go/books", [], Author.zero, b⟩
  | .updateBook id b => ⟨"PUT", "/api/go/books/" ++ id, [("id", id)], Author.zero, b⟩
  | .deleteBook id => ⟨"DELETE", "/api/go/books/" ++ id, [("id", id)], Author.zero, Book.zero⟩

/-- The handler of a call (`deleteUser` for the author delete). -/
def Op.handler (db : DB) : Op → Handler World
  | .createAuthor _ => Library.createAuthor db
  | .updateAuthor _ _ => Library.updateAuthor db
  | .deleteAuthor _ => Library.deleteUser db
  | .createBook _ => Library.createBook db
  | .updateBook _ _ => Library.updateBook db
  | .deleteBook _ => Library.deleteBook db

/-- A sequence of calls each of which succeeds (returns with status 200): the
world after the last one, `none` when a call ends the process or answers with
another status. -/
def runOps (db : DB) : List Op → World → Option World
  | [], c => some c
  | op :: ops, c =>
    match op.handler db ResponseWriter.fresh op.request c with
    | .exit _ => none
    | .done w c => if w.Status = 200 then runOps db ops c else none

/-- The list request. -/
def listRequest (path : String) : Request := ⟨"GET", path, [], Author.zero, Book.zero⟩

/-- The request for one record. -/
def getRequest (path id : String) : Request :=
  ⟨"GET", path ++ id, [("id", id)], Author.zero, Book.zero⟩

/-- The database of the scenario of section 8 of the spec: book 1 has title
`A`; author 1 exists and author 999 does not. -/
def seedStore : Store :=
  ⟨[⟨1, some "Jules", some "Verne", some "...", some "1828-02-08T00:00:00Z"⟩],
    [⟨1, some "A", some 1, some "isbn", some 1870⟩], 2, 2, none⟩

/-- The keys of a table with its sequence: no id twice, every id below the next
value of the sequence, and, when updates rewrite rows in place, ids ascending
along the scan order.  Ids are handed out in ascending order, so ascending ids
are insertion order. -/
def Keys (inPlace : Bool) (ids : List Int) (seq : Int) : Prop :=
  ids.Nodup ∧ (∀ i ∈ ids, i < seq) ∧ (inPlace = true → ids.Pairwise (· < ·))

/-- Both tables of a database have well-formed keys and no row holds a NULL,
as it is for rows written by the handlers, which bind Go strings only. -/
def Store.Keyed (inPlace : Bool) (s : Store) : Prop :=
  Keys inPlace (s.authors.map (fun row => row.id)) s.authorsSeq
  ∧ Keys inPlace (s.books.map (fun row => row.id)) s.booksSeq
  ∧ (∀ row ∈ s.authors, (scanAuthor row).isSome = true)
  ∧ (∀ row ∈ s.books, (scanBook row).isSome = true)

/-! ## Theorems -/

/-! ### Response writers -/

@[simp] theorem WriteHeader_Header (w : ResponseWriter) (n : Nat) :
    (w.WriteHeader n).Header = w.Header := by
  unfold ResponseWriter.WriteHeader; split <;> rfl

@[simp] theorem WriteHeader_Body (w : ResponseWriter) (n : Nat) :
    (w.WriteHeader n).Body = w.Body := by
  unfold ResponseWriter.WriteHeader; split <;> rfl

@[simp] theorem Encode_Header (w : ResponseWriter) (v : Encoded) :
    (w.Encode v).Header = w.Header := by
  simp [ResponseWriter.Encode]

theorem WriteHeader_Status (w : ResponseWriter) (n : Nat) (h : w.Code = none) :
    (w.WriteHeader n).Status = n := by
  simp [ResponseWriter.WriteHeader, ResponseWriter.Status, h]

theorem WriteHeader_Code (w : ResponseWriter) (n : Nat) (h : w.Code = none) :
    (w.WriteHeader n).Code = some n := by
  unfold ResponseWriter.WriteHeader; rw [h]

theorem Encode_Status (w : ResponseWriter) (v : Encoded) (h : w.Code = none) :
    (w.Encode v).Status = 200 := by
  simp [ResponseWriter.Encode, ResponseWriter.WriteHeader, ResponseWriter.Status, h]

@[simp] theorem Set_Code (w : ResponseWriter) (k v : String) : (w.Set k v).Code = w.Code := rfl

@[simp] theorem Set_Body (w : ResponseWriter) (k v : String) : (w.Set k v).Body = w.Body := rfl

theorem Get_eq_of_Header (w w' : ResponseWriter) (k : String) (h : w'.Header = w.Header) :
    w'.Get k = w.Get k := by
  simp [ResponseWriter.Get, h]

theorem lookup_filter_ne (k k' : String) (h : k' ≠ k) (l : List (String × String)) :
    (l.filter (fun e => e.1 ≠ k)).lookup k' = l.lookup k' := by
  induction l with
  | nil => rfl
  | cons e l ih =>
    obtain ⟨a, b⟩ := e
    by_cases hk : a = k
    · subst hk
      have : (k' == a) = false := by simpa using h
      rw [List.filter_cons_of_neg (by simp), List.lookup_cons, this, ih]
    · rw [List.filter_cons_of_pos (by simpa using hk)]
      by_cases hk' : k' = a
      · subst hk'
        simp [List.lookup]
      · have : (k' == a) = false := by simpa using hk'
        rw [List.lookup_cons, List.lookup_cons, this, ih]

theorem Get_Set_same (w : ResponseWriter) (k v : String) : (w.Set k v).Get k = v := by
  simp [ResponseWriter.Get, ResponseWriter.Set, List.lookup]

theorem Get_Set_other (w : ResponseWriter) (k k' v : String) (h : k' ≠ k) :
    (w.Set k v).Get k' = w.Get k' := by
  have hb : (k' == k) = false := by simpa using h
  unfold ResponseWriter.Get ResponseWriter.Set
  rw [List.lookup_cons, hb, lookup_filter_ne k k' h]

/-! ### Middleware -/

/-- C7: on an `OPTIONS` request, whatever its path, `enableCORS` returns with
status 200, leaves the body as it found it (empty), has the three CORS headers
set, `Access-Control-Allow-Origin` to `*`, and does not call the wrapped handler
(the call counter stays put); on any other method it sets the same headers,
writes nothing itself and calls the wrapped handler exactly once, returning
what that call returns. -/
theorem enableCORS_preflight_or_once {σ : Type} (next : Handler σ) (w : ResponseWriter)
    (r : Request) (s : σ) (n : Nat) :
    (r.Method = "OPTIONS" →
      ∃ w', enableCORS next w r s = .done w' s
        ∧ (w.Code = none → w'.Code = some 200 ∧ w'.Status = 200)
        ∧ w'.Body = w.Body
        ∧ w'.Get "Access-Control-Allow-Origin" = "*"
        ∧ w'.Get "Access-Control-Allow-Methods" = "GET, POST, PUT, DELETE, OPTIONS"
        ∧ w'.Get "Access-Control-Allow-Headers" = "Content-Type"
        ∧ enableCORS (counted next) w r (n, s) = .done w' (n, s))
    ∧ (r.Method ≠ "OPTIONS" →
      ∃ w', w'.Get "Access-Control-Allow-Origin" = "*"
        ∧ w'.Get "Access-Control-Allow-Methods" = "GET, POST, PUT, DELETE, OPTIONS"
        ∧ w'.Get "Access-Control-Allow-Headers" = "Content-Type"
        ∧ w'.Code = w.Code ∧ w'.Body = w.Body
        ∧ enableCORS next w r s = next w' r s
        ∧ enableCORS (counted next) w r (n, s) = counted next w' r (n, s)
        ∧ (enableCORS (counted next) w r (n, s)).world.1 = n + 1) := by
  have hO : (((w.Set "Access-Control-Allow-Origin" "*").Set "Access-Control-Allow-Methods"
      "GET, POST, PUT, DELETE, OPTIONS").Set "Access-Control-Allow-Headers" "Content-Type").Get
      "Access-Control-Allow-Origin" = "*" := by
    rw [Get_Set_other _ _ _ _ (by decide), Get_Set_other _ _ _ _ (by decide), Get_Set_same]
  have hM : (((w.Set "Access-Control-Allow-Origin" "*").Set "Access-Control-Allow-Methods"
      "GET, POST, PUT, DELETE, OPTIONS").Set "Access-Control-Allow-Headers" "Content-Type").Get
      "Access-Control-Allow-Methods" = "GET, POST, PUT, DELETE, OPTIONS" := by
    rw [Get_Set_other _ _ _ _ (by decide), Get_Set_same]
  have hH : (((w.Set "Access-Control-Allow-Origin" "*").Set "Access-Control-Allow-Methods"
      "GET, POST, PUT, DELETE, OPTIONS").Set "Access-Control-Allow-Headers" "Content-Type").Get
      "Access-Control-Allow-Headers" = "Content-Type" := Get_Set_same _ _ _
  constructor
  · intro hm
    refine ⟨((((w.Set "Access-Control-Allow-Origin" "*").Set "Access-Control-Allow-Methods"
      "GET, POST, PUT, DELETE, OPTIONS").Set "Access-Control-Allow-Headers" "Content-Type")).WriteHeader 200,
      by simp only [enableCORS, hm, if_true], ?_, by simp, ?_, ?_, ?_, ?_⟩
    · intro hc
      have hc' : (((w.Set "Access-Control-Allow-Origin" "*").Set "Access-Control-Allow-Methods"
          "GET, POST, PUT, DELETE, OPTIONS").Set "Access-Control-Allow-Headers"
          "Content-Type").Code = none := by simpa using hc
      exact ⟨WriteHeader_Code _ _ hc', WriteHeader_Status _ _ hc'⟩
    · rw [Get_eq_of_Header _ _ _ (WriteHeader_Header _ _)]; exact hO
    · rw [Get_eq_of_Header _ _ _ (WriteHeader_Header _ _)]; exact hM
    · rw [Get_eq_of_Header _ _ _ (WriteHeader_Header _ _)]; exact hH
    · simp only [enableCORS, hm, if_true]
  · intro hm
    refine ⟨(((w.Set "Access-Control-Allow-Origin" "*").Set "Access-Control-Allow-Methods"
      "GET, POST, PUT, DELETE, OPTIONS").Set "Access-Control-Allow-Headers" "Content-Type"), hO, hM, hH, by simp, by simp,
      by simp only [enableCORS, hm, if_false], by simp only [enableCORS, hm, if_false], ?_⟩
    simp only [enableCORS, hm, if_false, counted]
    split <;> rfl

/-! ### Handlers leave the headers alone -/

theorem getAuthors_header (db : DB) (w : ResponseWriter) (r : Request) (c : World)
    (w' : ResponseWriter) (h : (getAuthors db w r c).response = some w') :
    w'.Header = w.Header := by
  rcases hrun : c.run selectAuthors with ⟨_ | rows, c1⟩
  · simp [getAuthors, hrun, Outcome.response] at h
  · cases hscan : scanAuthors rows [] <;>
      simp [getAuthors, hrun, hscan, Outcome.response] at h
    subst h; simp

theorem getBooks_header (db : DB) (w : ResponseWriter) (r : Request) (c : World)
    (w' : ResponseWriter) (h : (getBooks db w r c).response = some w') :
    w'.Header = w.Header := by
  rcases hrun : c.run selectBooks with ⟨_ | rows, c1⟩
  · simp [getBooks, hrun, Outcome.response] at h
  · cases hscan : scanBooks rows [] <;>
      simp [getBooks, hrun, hscan, Outcome.response] at h
    subst h; simp

theorem getAuthor_header (db : DB) (w : ResponseWriter) (r : Request) (c : World)
    (w' : ResponseWriter) (h : (getAuthor db w r c).response = some w') :
    w'.Header = w.Header := by
  rcases hrun : c.run (selectAuthor db (r.Var "id")) with ⟨_ | row, c1⟩ <;>
    simp [getAuthor, hrun, Outcome.response] at h <;> subst h <;> simp

theorem getBook_header (db : DB) (w : ResponseWriter) (r : Request) (c : World)
    (w' : ResponseWriter) (h : (getBook db w r c).response = some w') :
    w'.Header = w.Header := by
  rcases hrun : c.run (selectBook db (r.Var "id")) with ⟨_ | row, c1⟩ <;>
    simp [getBook, hrun, Outcome.response] at h <;> subst h <;> simp

theorem createAuthor_header (db : DB) (w : ResponseWriter) (r : Request) (c : World)
    (w' : ResponseWriter) (h : (createAuthor db w r c).response = some w') :
    w'.Header = w.Header := by
  rcases hrun : c.run (insertAuthor db r.BodyAuthor) with ⟨_ | id, c1⟩ <;>
    simp [createAuthor, hrun, Outcome.response] at h
  subst h; simp

theorem createBook_header (db : DB) (w : ResponseWriter) (r : Request) (c : World)
    (w' : ResponseWriter) (h : (createBook db w r c).response = some w') :
    w'.Header = w.Header := by
  rcases hrun : c.run (insertBook db r.BodyBook) with ⟨_ | id, c1⟩ <;>
    simp [createBook, hrun, Outcome.response] at h
  subst h; simp

theorem updateAuthor_header (db : DB) (w : ResponseWriter) (r : Request) (c : World)
    (w' : ResponseWriter) (h : (updateAuthor db w r c).response = some w') :
    w'.Header = w.Header := by
  rcases hrun : c.run (updateAuthorRow db r.BodyAuthor (r.Var "id")) with ⟨_ | n, c1⟩
  · simp [updateAuthor, hrun, Outcome.response] at h
  · rcases hrun2 : c1.run (selectAuthor db (r.Var "id")) with ⟨_ | row, c2⟩ <;>
      simp [updateAuthor, hrun, hrun2, Outcome.response] at h
    subst h; simp

theorem updateBook_header (db : DB) (w : ResponseWriter) (r : Request) (c : World)
    (w' : ResponseWriter) (h : (updateBook db w r c).response = some w') :
    w'.Header = w.Header := by
  rcases hrun : c.run (updateBookRow db r.BodyBook (r.Var "id")) with ⟨_ | n, c1⟩
  · simp [updateBook, hrun, Outcome.response] at h
  · rcases hrun2 : c1.run (selectBook db (r.Var "id")) with ⟨_ | row, c2⟩ <;>
      simp [updateBook, hrun, hrun2, Outcome.response] at h
    subst h; simp

theorem deleteUser_header (db : DB) (w : ResponseWriter) (r : Request) (c : World)
    (w' : ResponseWriter) (h : (deleteUser db w r c).response = some w') :
    w'.Header = w.Header := by
  rcases hrun : c.run (selectAuthor db (r.Var "id")) with ⟨_ | row, c1⟩
  · simp [deleteUser, hrun, Outcome.response] at h; subst h; simp
  · rcases hrun2 : c1.run (deleteUsersRow db (r.Var "id")) with ⟨_ | n, c2⟩ <;>
      simp [deleteUser, hrun, hrun2, Outcome.response] at h <;> subst h <;> simp

theorem deleteBook_header (db : DB) (w : ResponseWriter) (r : Request) (c : World)
    (w' : ResponseWriter) (h : (deleteBook db w r c).response = some w') :
    w'.Header = w.Header := by
  rcases hrun : c.run (selectBook db (r.Var "id")) with ⟨_ | row, c1⟩
  · simp [deleteBook, hrun, Outcome.response] at h; subst h; simp
  · rcases hrun2 : c1.run (deleteBookRow db (r.Var "id")) with ⟨_ | n, c2⟩ <;>
      simp [deleteBook, hrun, hrun2, Outcome.response] at h <;> subst h <;> simp

/-! ### The served handler -/

/-- C8, as stated, fails: whatever the handlers behind the router, the response
to an `OPTIONS` request is written by `enableCORS` alone, before the JSON
middleware runs, and it has no `Content-Type` header. -/
theorem enhancedRouter_options_without_content_type :
    (∀ deleteAuthor updateBookAndAuthor fallback : Handler World,
      enhancedRouter heapStore deleteAuthor updateBookAndAuthor fallback ResponseWriter.fresh
          ⟨"OPTIONS", "/api/go/authors", [], Author.zero, Book.zero⟩ ⟨Store.empty, []⟩
        = .done ⟨[("Access-Control-Allow-Headers", "Content-Type"),
                  ("Access-Control-Allow-Methods", "GET, POST, PUT, DELETE, OPTIONS"),
                  ("Access-Control-Allow-Origin", "*")], some 200, []⟩ ⟨Store.empty, []⟩)
    ∧ (ResponseWriter.mk [("Access-Control-Allow-Headers", "Content-Type"),
          ("Access-Control-Allow-Methods", "GET, POST, PUT, DELETE, OPTIONS"),
          ("Access-Control-Allow-Origin", "*")] (some 200) []).Get "Content-Type" = ""
    ∧ (ResponseWriter.mk [("Access-Control-Allow-Headers", "Content-Type"),
          ("Access-Control-Allow-Methods", "GET, POST, PUT, DELETE, OPTIONS"),
          ("Access-Control-Allow-Origin", "*")] (some 200) []).Get "Content-Type"
        ≠ "application/json" := by
  refine ⟨fun _ _ _ => ?_, by decide, by decide⟩
  rfl

/-- C8, amended: a request whose method is not `OPTIONS` and that the router
hands to one of the handlers defined in the file (`deleteUser` standing behind
the route registered as `deleteAuthor`) gets, when the handler returns, a
response with `Content-Type: application/json`, the 404 answers of those
handlers included. -/
theorem enhancedRouter_content_type (db : DB) (updateBookAndAuthor fallback : Handler World)
    (w : ResponseWriter) (r : Request) (c : World) (route : Route)
    (vars : List (String × String)) (w' : ResponseWriter)
    (hm : r.Method ≠ "OPTIONS") (hroute : mux r.Method r.Path = some (route, vars))
    (hsrc : route ≠ Route.updateBookAndAuthor)
    (h : (enhancedRouter db (deleteUser db) updateBookAndAuthor fallback w r c).response
      = some w') :
    w'.Get "Content-Type" = "application/json" := by
  simp only [enhancedRouter, enableCORS, hm, if_false, jsonContentTypeMiddleware, router,
    hroute] at h
  have key : w'.Header = ((((w.Set "Access-Control-Allow-Origin" "*").Set
      "Access-Control-Allow-Methods" "GET, POST, PUT, DELETE, OPTIONS").Set
      "Access-Control-Allow-Headers" "Content-Type").Set "Content-Type"
      "application/json").Header := by
    cases route <;> simp only [Route.handler] at h
    · exact getAuthors_header _ _ _ _ _ h
    · exact createAuthor_header _ _ _ _ _ h
    · exact getAuthor_header _ _ _ _ _ h
    · exact updateAuthor_header _ _ _ _ _ h
    · exact deleteUser_header _ _ _ _ _ h
    · exact getBooks_header _ _ _ _ _ h
    · exact createBook_header _ _ _ _ _ h
    · exact getBook_header _ _ _ _ _ h
    · exact updateBook_header _ _ _ _ _ h
    · exact deleteBook_header _ _ _ _ _ h
    · exact absurd rfl hsrc
  rw [Get_eq_of_Header _ _ _ key, Get_Set_same]

/-- C8, amended, at a concrete request: `GET /api/go/authors/7` on the empty
database is routed to `getAuthor`, answered 404, and the answer carries
`Content-Type: application/json`. -/
theorem enhancedRouter_content_type_witness :
    mux "GET" "/api/go/authors/7" = some (Route.getAuthor, [("id", "7")])
    ∧ ∀ updateBookAndAuthor fallback : Handler World,
      ((enhancedRouter heapStore (deleteUser heapStore) updateBookAndAuthor fallback
          ResponseWriter.fresh (getRequest "/api/go/authors/" "7") ⟨Store.empty, []⟩).response
        = some ⟨[("Content-Type", "application/json"),
                 ("Access-Control-Allow-Headers", "Content-Type"),
                 ("Access-Control-Allow-Methods", "GET, POST, PUT, DELETE, OPTIONS"),
                 ("Access-Control-Allow-Origin", "*")], some 404, []⟩)
      ∧ (ResponseWriter.mk [("Content-Type", "application/json"),
                 ("Access-Control-Allow-Headers", "Content-Type"),
                 ("Access-Control-Allow-Methods", "GET, POST, PUT, DELETE, OPTIONS"),
                 ("Access-Control-Allow-Origin", "*")] (some 404) []).Get "Content-Type"
          = "application/json" :=
  ⟨by decide, fun updateBookAndAuthor fallback =>
    ⟨rfl, enhancedRouter_content_type heapStore updateBookAndAuthor fallback ResponseWriter.fresh
      (getRequest "/api/go/authors/" "7") ⟨Store.empty, []⟩ Route.getAuthor [("id", "7")] _
      (by decide) (by decide) (by decide) rfl⟩⟩

/-! ### Round trips and statements -/

theorem run_eq {α : Type} (c : World) (stmt : Store → Except SqlError α × Store) :
    c.run stmt =
      if c.faults.head? = some true then (.error .connection, ⟨c.store, c.faults.tail⟩)
      else ((stmt c.store).1, ⟨(stmt c.store).2, c.faults.tail⟩) := by
  rcases c with ⟨s, fs⟩
  rcases fs with _ | ⟨b, fs⟩
  · simp [World.run]
  · cases b <;> simp [World.run]

theorem run_fault {α : Type} (c : World) (stmt : Store → Except SqlError α × Store)
    (h : c.faults.head? = some true) :
    c.run stmt = (.error .connection, ⟨c.store, c.faults.tail⟩) := by
  rw [run_eq, if_pos h]

theorem run_through {α : Type} (c : World) (stmt : Store → Except SqlError α × Store)
    (h : c.faults.head? ≠ some true) :
    c.run stmt = ((stmt c.store).1, ⟨(stmt c.store).2, c.faults.tail⟩) := by
  rw [run_eq, if_neg h]

theorem selectAuthor_store (db : DB) (id : String) (s : Store) : (selectAuthor db id s).2 = s := by
  unfold selectAuthor
  split
  · rfl
  · split
    · rfl
    · split <;> rfl

theorem selectBook_store (db : DB) (id : String) (s : Store) : (selectBook db id s).2 = s := by
  unfold selectBook
  split
  · rfl
  · split
    · rfl
    · split <;> rfl

theorem selectAuthor_missing (db : DB) (id : String) (s : Store)
    (h : ∀ row ∈ s.authors, db.integer id ≠ some row.id) :
    ∃ e, (selectAuthor db id s).1 = .error e := by
  unfold selectAuthor
  cases hk : db.integer id with
  | none => exact ⟨_, rfl⟩
  | some k =>
    have hnone : s.authors.find? (fun row => decide (row.id = k)) = none := by
      rw [List.find?_eq_none]
      intro row hrow
      have := h row hrow
      rw [hk] at this
      simpa using fun e => this (by rw [e])
    simp only [hnone]
    exact ⟨_, rfl⟩

theorem selectBook_missing (db : DB) (id : String) (s : Store)
    (h : ∀ row ∈ s.books, db.integer id ≠ some row.id) :
    ∃ e, (selectBook db id s).1 = .error e := by
  unfold selectBook
  cases hk : db.integer id with
  | none => exact ⟨_, rfl⟩
  | some k =>
    have hnone : s.books.find? (fun row => decide (row.id = k)) = none := by
      rw [List.find?_eq_none]
      intro row hrow
      have := h row hrow
      rw [hk] at this
      simpa using fun e => this (by rw [e])
    simp only [hnone]
    exact ⟨_, rfl⟩

/-! ### Deleting -/

/-- C2: when no row of the table has the requested id, `deleteUser` (the handler
behind the author delete route) and `deleteBook` return, the process lives, the
status is 404 whether the lookup found nothing or the store failed on it, and
the database is as it was. -/
theorem delete_missing_not_found (db : DB) (w : ResponseWriter) (r : Request) (c : World)
    (hw : w.Code = none) :
    ((∀ row ∈ c.store.authors, db.integer (r.Var "id") ≠ some row.id) →
      ∃ c', deleteUser db w r c = .done (w.WriteHeader 404) c'
        ∧ (w.WriteHeader 404).Status = 404 ∧ (w.WriteHeader 404).Body = w.Body
        ∧ c'.store = c.store ∧ (deleteUser db w r c).exited = false)
    ∧ ((∀ row ∈ c.store.books, db.integer (r.Var "id") ≠ some row.id) →
      ∃ c', deleteBook db w r c = .done (w.WriteHeader 404) c'
        ∧ (w.WriteHeader 404).Status = 404 ∧ (w.WriteHeader 404).Body = w.Body
        ∧ c'.store = c.store ∧ (deleteBook db w r c).exited = false) := by
  constructor
  · intro h
    obtain ⟨e, he⟩ := selectAuthor_missing db _ _ h
    have hrun : ∃ e', c.run (selectAuthor db (r.Var "id")) = (.error e', ⟨c.store, c.faults.tail⟩) := by
      rw [run_eq]
      split
      · exact ⟨_, rfl⟩
      · rw [he, selectAuthor_store]; exact ⟨_, rfl⟩
    obtain ⟨e', he'⟩ := hrun
    refine ⟨⟨c.store, c.faults.tail⟩, ?_, WriteHeader_Status _ _ hw, by simp, rfl, ?_⟩ <;>
      simp [deleteUser, he', Outcome.exited]
  · intro h
    obtain ⟨e, he⟩ := selectBook_missing db _ _ h
    have hrun : ∃ e', c.run (selectBook db (r.Var "id")) = (.error e', ⟨c.store, c.faults.tail⟩) := by
      rw [run_eq]
      split
      · exact ⟨_, rfl⟩
      · rw [he, selectBook_store]; exact ⟨_, rfl⟩
    obtain ⟨e', he'⟩ := hrun
    refine ⟨⟨c.store, c.faults.tail⟩, ?_, WriteHeader_Status _ _ hw, by simp, rfl, ?_⟩ <;>
      simp [deleteBook, he', Outcome.exited]

/-- C2 at a concrete request: id 999 on the seeded database, which has author 1
and book 1 only. -/
theorem delete_missing_not_found_witness :
    (∃ c', deleteUser heapStore ResponseWriter.fresh (Op.deleteAuthor "999").request
          ⟨seedStore, []⟩ = .done (ResponseWriter.fresh.WriteHeader 404) c'
        ∧ (ResponseWriter.fresh.WriteHeader 404).Status = 404
        ∧ (ResponseWriter.fresh.WriteHeader 404).Body = ResponseWriter.fresh.Body
        ∧ c'.store = seedStore
        ∧ (deleteUser heapStore ResponseWriter.fresh (Op.deleteAuthor "999").request
          ⟨seedStore, []⟩).exited = false)
    ∧ (∃ c', deleteBook heapStore ResponseWriter.fresh (Op.deleteBook "999").request
          ⟨seedStore, []⟩ = .done (ResponseWriter.fresh.WriteHeader 404) c'
        ∧ (ResponseWriter.fresh.WriteHeader 404).Status = 404
        ∧ (ResponseWriter.fresh.WriteHeader 404).Body = ResponseWriter.fresh.Body
        ∧ c'.store = seedStore
        ∧ (deleteBook heapStore ResponseWriter.fresh (Op.deleteBook "999").request
          ⟨seedStore, []⟩).exited = false) :=
  ⟨(delete_missing_not_found heapStore ResponseWriter.fresh (Op.deleteAuthor "999").request
      ⟨seedStore, []⟩ rfl).1 (by decide),
   (delete_missing_not_found heapStore ResponseWriter.fresh (Op.deleteBook "999").request
      ⟨seedStore, []⟩ rfl).2 (by decide)⟩

theorem run_store_of_readonly {α : Type} (c : World) (stmt : Store → Except SqlError α × Store)
    (h : ∀ s, (stmt s).2 = s) : (c.run stmt).2.store = c.store := by
  rw [run_eq]; split
  · rfl
  · exact h _

theorem run_store {α : Type} (c : World) (stmt : Store → Except SqlError α × Store) :
    (c.run stmt).2.store = c.store ∨ (c.run stmt).2.store = (stmt c.store).2 := by
  rw [run_eq]; split
  · exact Or.inl rfl
  · exact Or.inr rfl

theorem deleteUsersRow_authors (db : DB) (id : String) (s : Store) :
    (deleteUsersRow db id s).2.authors = s.authors ∧ (deleteUsersRow db id s).2.books = s.books := by
  unfold deleteUsersRow
  split
  · exact ⟨rfl, rfl⟩
  · split <;> exact ⟨rfl, rfl⟩

theorem deleteBookRow_authors (db : DB) (id : String) (s : Store) :
    (deleteBookRow db id s).2.authors = s.authors := by
  unfold deleteBookRow
  split <;> rfl

theorem deleteUser_tables (db : DB) (w : ResponseWriter) (r : Request) (c : World) :
    (deleteUser db w r c).world.store.authors = c.store.authors
    ∧ (deleteUser db w r c).world.store.books = c.store.books := by
  have h1 := run_store_of_readonly c (selectAuthor db (r.Var "id")) (selectAuthor_store db _)
  rcases hrun : c.run (selectAuthor db (r.Var "id")) with ⟨_ | row, c1⟩
  · rw [hrun] at h1
    simp only [deleteUser, hrun, Outcome.world]
    simp only at h1
    rw [h1]; exact ⟨rfl, rfl⟩
  · rw [hrun] at h1
    simp only at h1
    have h2 := run_store c1 (deleteUsersRow db (r.Var "id"))
    have h3 := deleteUsersRow_authors db (r.Var "id") c1.store
    have hc2 : (c1.run (deleteUsersRow db (r.Var "id"))).2.store.authors = c.store.authors
        ∧ (c1.run (deleteUsersRow db (r.Var "id"))).2.store.books = c.store.books := by
      rcases h2 with h2 | h2
      · rw [h2, h1]; exact ⟨rfl, rfl⟩
      · rw [h2, h3.1, h3.2, h1]; exact ⟨rfl, rfl⟩
    rcases hrun2 : c1.run (deleteUsersRow db (r.Var "id")) with ⟨_ | n, c2⟩ <;>
      rw [hrun2] at hc2 <;> simp only [deleteUser, hrun, hrun2, Outcome.world] <;> exact hc2

/-- C9: for every database and every request, the author delete handler
(`deleteUser`) leaves the books table as it was, books that name the author
included, and `deleteBook` leaves the authors table as it was. -/
theorem delete_leaves_other_table (db : DB) (w : ResponseWriter) (r : Request) (c : World) :
    (deleteUser db w r c).world.store.books = c.store.books
    ∧ (deleteBook db w r c).world.store.authors = c.store.authors := by
  refine ⟨(deleteUser_tables db w r c).2, ?_⟩
  have h1 := run_store_of_readonly c (selectBook db (r.Var "id")) (selectBook_store db _)
  rcases hrun : c.run (selectBook db (r.Var "id")) with ⟨_ | row, c1⟩
  · rw [hrun] at h1
    simp only [deleteBook, hrun, Outcome.world]
    simp only at h1
    rw [h1]
  · rw [hrun] at h1
    simp only at h1
    have h2 := run_store c1 (deleteBookRow db (r.Var "id"))
    have h3 := deleteBookRow_authors db (r.Var "id") c1.store
    have hc2 : (c1.run (deleteBookRow db (r.Var "id"))).2.store.authors = c.store.authors := by
      rcases h2 with h2 | h2
      · rw [h2, h1]
      · rw [h2, h3, h1]
    rcases hrun2 : c1.run (deleteBookRow db (r.Var "id")) with ⟨_ | n, c2⟩ <;>
      rw [hrun2] at hc2 <;> simp only [deleteBook, hrun, hrun2, Outcome.world] <;> exact hc2

theorem selectBook_present (db : DB) (id : String) (s : Store) (row : BookRow)
    (hrow : row ∈ s.books) (hid : db.integer id = some row.id)
    (hscan : ∀ row' ∈ s.books, row'.id = row.id → (scanBook row').isSome = true) :
    ∃ b, (selectBook db id s).1 = .ok b := by
  have hf : ∃ row', s.books.find? (fun r => decide (r.id = row.id)) = some row' := by
    cases hf : s.books.find? (fun r => decide (r.id = row.id)) with
    | none =>
      rw [List.find?_eq_none] at hf
      exact absurd (hf row hrow) (by simp)
    | some row' => exact ⟨row', rfl⟩
  obtain ⟨row', hf⟩ := hf
  have hs := hscan row' (List.mem_of_find?_eq_some hf) (by simpa using List.find?_some hf)
  obtain ⟨b, hb⟩ := Option.isSome_iff_exists.mp hs
  exact ⟨b, by simp only [selectBook, hid, hf, hb]⟩

theorem selectAuthor_present (db : DB) (id : String) (s : Store) (row : AuthorRow)
    (hrow : row ∈ s.authors) (hid : db.integer id = some row.id)
    (hscan : ∀ row' ∈ s.authors, row'.id = row.id → (scanAuthor row').isSome = true) :
    ∃ a, (selectAuthor db id s).1 = .ok a := by
  have hf : ∃ row', s.authors.find? (fun r => decide (r.id = row.id)) = some row' := by
    cases hf : s.authors.find? (fun r => decide (r.id = row.id)) with
    | none =>
      rw [List.find?_eq_none] at hf
      exact absurd (hf row hrow) (by simp)
    | some row' => exact ⟨row', rfl⟩
  obtain ⟨row', hf⟩ := hf
  have hs := hscan row' (List.mem_of_find?_eq_some hf) (by simpa using List.find?_some hf)
  obtain ⟨a, ha⟩ := Option.isSome_iff_exists.mp hs
  exact ⟨a, by simp only [selectAuthor, hid, hf, ha]⟩

/-- The book half of the delete contract: when a row has the requested id and
holds no NULL, and the store answers both statements, `deleteBook` removes the
rows with that id from `books`, keeps the others in order, answers 200, and a
later `getBook` for the id answers 404. -/
theorem deleteBook_removes_row (db : DB) (w : ResponseWriter) (r : Request) (c : World)
    (row : BookRow) (hw : w.Code = none) (hrow : row ∈ c.store.books)
    (hid : db.integer (r.Var "id") = some row.id)
    (hscan : ∀ row' ∈ c.store.books, row'.id = row.id → (scanBook row').isSome = true)
    (hf1 : c.faults.head? ≠ some true) (hf2 : c.faults.tail.head? ≠ some true) :
    deleteBook db w r c = .done (w.Encode (.text "книга удалена"))
        ⟨{ c.store with books := c.store.books.filter (fun b => b.id ≠ row.id) },
          c.faults.tail.tail⟩
    ∧ (w.Encode (.text "книга удалена")).Status = 200
    ∧ ∀ (w2 : ResponseWriter) (r2 : Request) (faults2 : List Bool),
        r2.Var "id" = r.Var "id" → w2.Code = none →
        (getBook db w2 r2 ⟨{ c.store with books := c.store.books.filter (fun b => b.id ≠ row.id) },
          faults2⟩).response.map ResponseWriter.Status
          = some 404 := by
  obtain ⟨row', hsel⟩ := selectBook_present db _ _ row hrow hid hscan
  have hrun1 : c.run (selectBook db (r.Var "id")) = (.ok row', ⟨c.store, c.faults.tail⟩) := by
    rw [run_through _ _ hf1, hsel, selectBook_store]
  have hrun2 : (World.mk c.store c.faults.tail).run (deleteBookRow db (r.Var "id"))
      = (.ok (c.store.books.countP (fun b => b.id = row.id)),
          ⟨{ c.store with books := c.store.books.filter (fun b => b.id ≠ row.id) },
            c.faults.tail.tail⟩) := by
    rw [run_through _ _ hf2]
    simp only [deleteBookRow, hid]
  refine ⟨by simp only [deleteBook, hrun1, hrun2], Encode_Status _ _ hw, ?_⟩
  intro w2 r2 faults2 hr2 hw2
  have hmiss : ∀ b ∈ (c.store.books.filter (fun b => b.id ≠ row.id)),
      db.integer (r2.Var "id") ≠ some b.id := by
    intro b hb
    rw [hr2, hid]
    have := (List.mem_filter.mp hb).2
    intro e
    exact (by simpa using this : b.id ≠ row.id) (Option.some.inj e).symm
  obtain ⟨e, he⟩ := selectBook_missing db (r2.Var "id")
    { c.store with books := c.store.books.filter (fun b => b.id ≠ row.id) } hmiss
  have hrun : ∃ e' c',
      (World.mk { c.store with books := c.store.books.filter (fun b => b.id ≠ row.id) }
        faults2).run (selectBook db (r2.Var "id")) = (.error e', c') := by
    rw [run_eq]
    split
    · exact ⟨_, _, rfl⟩
    · rw [he]; exact ⟨_, _, rfl⟩
  obtain ⟨e', c', he'⟩ := hrun
  simp only [getBook, he', Outcome.response, Option.map, WriteHeader_Status _ _ hw2]

/-- C3 fails for authors: every row of `authors`, the one with the requested id
included, is still in the table after `deleteUser` (the whole table is as
before, since the statement deletes from `users`), and in a database without a
relation `users`, as `main` sets it up, the answer is 404. -/
theorem deleteUser_existing_author_remains (db : DB) (w : ResponseWriter) (r : Request)
    (c : World) (row : AuthorRow) (hrow : row ∈ c.store.authors) :
    row ∈ (deleteUser db w r c).world.store.authors
    ∧ (deleteUser db w r c).world.store.authors = c.store.authors
    ∧ (c.store.users = none → w.Code = none →
        (deleteUser db w r c).response.map ResponseWriter.Status = some 404) := by
  have ht := (deleteUser_tables db w r c).1
  refine ⟨by rw [ht]; exact hrow, ht, ?_⟩
  intro hu hw
  have h1 := run_store_of_readonly c (selectAuthor db (r.Var "id")) (selectAuthor_store db _)
  rcases hrun : c.run (selectAuthor db (r.Var "id")) with ⟨_ | row1, c1⟩
  · simp only [deleteUser, hrun, Outcome.response, Option.map, WriteHeader_Status _ _ hw]
  · rw [hrun] at h1
    simp only at h1
    have hdel : ∃ e c2, c1.run (deleteUsersRow db (r.Var "id")) = (.error e, c2) := by
      rw [run_eq]
      split
      · exact ⟨_, _, rfl⟩
      · simp only [deleteUsersRow, h1, hu]; exact ⟨_, _, rfl⟩
    obtain ⟨e, c2, hdel⟩ := hdel
    simp only [deleteUser, hrun, hdel, Outcome.response, Option.map, WriteHeader_Status _ _ hw]

/-- C3 at the failing input: deleting author 1 of the seeded database answers
404 and changes nothing, and `getAuthor` still finds the author. -/
theorem deleteUser_existing_author_remains_witness :
    (⟨1, some "Jules", some "Verne", some "...", some "1828-02-08T00:00:00Z"⟩ : AuthorRow) ∈
        (deleteUser heapStore ResponseWriter.fresh (Op.deleteAuthor "1").request
          ⟨seedStore, []⟩).world.store.authors
    ∧ deleteUser heapStore ResponseWriter.fresh (Op.deleteAuthor "1").request ⟨seedStore, []⟩
        = .done ⟨[], some 404, []⟩ ⟨seedStore, []⟩
    ∧ getAuthor heapStore ResponseWriter.fresh (getRequest "/api/go/authors/" "1")
          ⟨seedStore, []⟩
        = .done ⟨[], some 200, [.author ⟨1, "Jules", "Verne", "...", "1828-02-08T00:00:00Z"⟩]⟩
          ⟨seedStore, []⟩ :=
  ⟨(deleteUser_existing_author_remains heapStore ResponseWriter.fresh
      (Op.deleteAuthor "1").request ⟨seedStore, []⟩
      ⟨1, some "Jules", some "Verne", some "...", some "1828-02-08T00:00:00Z"⟩
      (by decide)).1, by decide, by decide⟩

/-! ### Updating -/

theorem updateRows_of_no_match {α : Type} (b : Bool) (p : α → Bool) (f : α → α) (rows : List α)
    (h : ∀ r ∈ rows, p r = false) : updateRows b p f rows = rows := by
  unfold updateRows
  split
  · calc rows.map (fun r => if p r = true then f r else r) = rows.map id := by
          apply List.map_congr_left
          intro r hr
          simp [h r hr]
      _ = rows := List.map_id _
  · have h1 : rows.filter (fun r => !p r) = rows := by
      rw [List.filter_eq_self]
      intro r hr
      simp [h r hr]
    have h2 : rows.filter p = [] := by
      rw [List.filter_eq_nil_iff]
      intro r hr
      simp [h r hr]
    rw [h1, h2]; simp

theorem updateAuthorRow_missing (db : DB) (a : Author) (id : String) (s : Store)
    (h : ∀ row ∈ s.authors, db.integer id ≠ some row.id) : (updateAuthorRow db a id s).2 = s := by
  unfold updateAuthorRow
  split
  · rename_i d k hd hk
    have hno : ∀ row ∈ s.authors, decide (row.id = k) = false := by
      intro row hrow
      have := h row hrow
      rw [hk] at this
      simpa using fun e => this (by rw [e])
    simp only [updateRows_of_no_match _ _ _ _ hno]
  · rfl

theorem updateBookRow_missing (db : DB) (b : Book) (id : String) (s : Store)
    (h : ∀ row ∈ s.books, db.integer id ≠ some row.id) : (updateBookRow db b id s).2 = s := by
  unfold updateBookRow
  split
  · rename_i x y k hx hy hk
    have hno : ∀ row ∈ s.books, decide (row.id = k) = false := by
      intro row hrow
      have := h row hrow
      rw [hk] at this
      simpa using fun e => this (by rw [e])
    simp only [updateRows_of_no_match _ _ _ _ hno]
  · rfl

theorem run_selectAuthor_missing (db : DB) (id : String) (c : World)
    (h : ∀ row ∈ c.store.authors, db.integer id ≠ some row.id) :
    ∃ e, c.run (selectAuthor db id) = (.error e, ⟨c.store, c.faults.tail⟩) := by
  obtain ⟨e, he⟩ := selectAuthor_missing db id _ h
  rw [run_eq]
  split
  · exact ⟨_, rfl⟩
  · rw [he, selectAuthor_store]; exact ⟨_, rfl⟩

theorem run_selectBook_missing (db : DB) (id : String) (c : World)
    (h : ∀ row ∈ c.store.books, db.integer id ≠ some row.id) :
    ∃ e, c.run (selectBook db id) = (.error e, ⟨c.store, c.faults.tail⟩) := by
  obtain ⟨e, he⟩ := selectBook_missing db id _ h
  rw [run_eq]
  split
  · exact ⟨_, rfl⟩
  · rw [he, selectBook_store]; exact ⟨_, rfl⟩

/-- C5 fails: when no row has the requested id, `updateAuthor` and `updateBook`
do not answer 404: the `UPDATE` matches nothing, the re-read comes back with
`sql.ErrNoRows` and the handler calls `log.Fatal`.  The process ends, no
response is sent, and the database is as it was. -/
theorem update_missing_exits (db : DB) (w : ResponseWriter) (r : Request) (c : World) :
    ((∀ row ∈ c.store.authors, db.integer (r.Var "id") ≠ some row.id) →
      (updateAuthor db w r c).exited = true ∧ (updateAuthor db w r c).response = none
        ∧ (updateAuthor db w r c).world.store = c.store)
    ∧ ((∀ row ∈ c.store.books, db.integer (r.Var "id") ≠ some row.id) →
      (updateBook db w r c).exited = true ∧ (updateBook db w r c).response = none
        ∧ (updateBook db w r c).world.store = c.store) := by
  constructor
  · intro h
    have hst := updateAuthorRow_missing db r.BodyAuthor (r.Var "id") c.store h
    have hrun1 : ∃ res, c.run (updateAuthorRow db r.BodyAuthor (r.Var "id"))
        = (res, ⟨c.store, c.faults.tail⟩) := by
      rw [run_eq]; split
      · exact ⟨_, rfl⟩
      · rw [hst]; exact ⟨_, rfl⟩
    obtain ⟨res, hrun1⟩ := hrun1
    cases res with
    | error e => simp [updateAuthor, hrun1, Outcome.exited, Outcome.response, Outcome.world]
    | ok n =>
      obtain ⟨e, hrun2⟩ := run_selectAuthor_missing db (r.Var "id") ⟨c.store, c.faults.tail⟩ h
      simp [updateAuthor, hrun1, hrun2, Outcome.exited, Outcome.response, Outcome.world]
  · intro h
    have hst := updateBookRow_missing db r.BodyBook (r.Var "id") c.store h
    have hrun1 : ∃ res, c.run (updateBookRow db r.BodyBook (r.Var "id"))
        = (res, ⟨c.store, c.faults.tail⟩) := by
      rw [run_eq]; split
      · exact ⟨_, rfl⟩
      · rw [hst]; exact ⟨_, rfl⟩
    obtain ⟨res, hrun1⟩ := hrun1
    cases res with
    | error e => simp [updateBook, hrun1, Outcome.exited, Outcome.response, Outcome.world]
    | ok n =>
      obtain ⟨e, hrun2⟩ := run_selectBook_missing db (r.Var "id") ⟨c.store, c.faults.tail⟩ h
      simp [updateBook, hrun1, hrun2, Outcome.exited, Outcome.response, Outcome.world]

/-- C5 at the failing input: updating author 999 and book 999 of the seeded
database, with fields the store accepts and no connection failure, ends the
process. -/
theorem update_missing_exits_witness :
    updateAuthor heapStore ResponseWriter.fresh
        (Op.updateAuthor "999" ⟨0, "Jules", "Verne", "...", "1828-02-08"⟩).request
        ⟨seedStore, []⟩ = .exit ⟨seedStore, []⟩
    ∧ updateBook heapStore ResponseWriter.fresh
        (Op.updateBook "999" ⟨0, "B", "1", "isbn", "1870"⟩).request
        ⟨seedStore, []⟩ = .exit ⟨seedStore, []⟩
    ∧ (updateAuthor heapStore ResponseWriter.fresh
        (Op.updateAuthor "999" ⟨0, "Jules", "Verne", "...", "1828-02-08"⟩).request
        ⟨seedStore, []⟩).exited = true :=
  ⟨by decide, by decide,
    ((update_missing_exits heapStore ResponseWriter.fresh
      (Op.updateAuthor "999" ⟨0, "Jules", "Verne", "...", "1828-02-08"⟩).request
      ⟨seedStore, []⟩).1 (by decide)).1⟩

/-! ### Reading -/

theorem scanAuthors_eq_none_iff (rows : List AuthorRow) (acc : List Author) :
    scanAuthors rows acc = none ↔ ∃ row ∈ rows, scanAuthor row = none := by
  induction rows generalizing acc with
  | nil => simp [scanAuthors]
  | cons row rows ih =>
    cases h : scanAuthor row with
    | none => simp [scanAuthors, h]
    | some a => simp [scanAuthors, h, ih]

theorem scanBooks_eq_none_iff (rows : List BookRow) (acc : List Book) :
    scanBooks rows acc = none ↔ ∃ row ∈ rows, scanBook row = none := by
  induction rows generalizing acc with
  | nil => simp [scanBooks]
  | cons row rows ih =>
    cases h : scanBook row with
    | none => simp [scanBooks, h]
    | some a => simp [scanBooks, h, ih]

theorem selectAuthor_error_iff (db : DB) (id : String) (s : Store) :
    (∃ e, (selectAuthor db id s).1 = .error e) ↔
      ((∀ row ∈ s.authors, db.integer id ≠ some row.id)
        ∨ ∃ k row, db.integer id = some k
            ∧ s.authors.find? (fun x => decide (x.id = k)) = some row ∧ scanAuthor row = none) := by
  constructor
  · rintro ⟨e, he⟩
    by_cases hmiss : ∀ row ∈ s.authors, db.integer id ≠ some row.id
    · exact Or.inl hmiss
    · right
      push_neg at hmiss
      obtain ⟨row, hrow, hid⟩ := hmiss
      cases hf : s.authors.find? (fun x => decide (x.id = row.id)) with
      | none =>
        rw [List.find?_eq_none] at hf
        exact absurd (hf row hrow) (by simp)
      | some row' =>
        cases hs : scanAuthor row' with
        | none => exact ⟨row.id, row', hid, hf, hs⟩
        | some a => simp [selectAuthor, hid, hf, hs] at he
  · rintro (hmiss | ⟨k, row, hid, hf, hs⟩)
    · exact selectAuthor_missing db id s hmiss
    · exact ⟨.nullValue, by simp only [selectAuthor, hid, hf, hs]⟩

theorem selectBook_error_iff (db : DB) (id : String) (s : Store) :
    (∃ e, (selectBook db id s).1 = .error e) ↔
      ((∀ row ∈ s.books, db.integer id ≠ some row.id)
        ∨ ∃ k row, db.integer id = some k
            ∧ s.books.find? (fun x => decide (x.id = k)) = some row ∧ scanBook row = none) := by
  constructor
  · rintro ⟨e, he⟩
    by_cases hmiss : ∀ row ∈ s.books, db.integer id ≠ some row.id
    · exact Or.inl hmiss
    · right
      push_neg at hmiss
      obtain ⟨row, hrow, hid⟩ := hmiss
      cases hf : s.books.find? (fun x => decide (x.id = row.id)) with
      | none =>
        rw [List.find?_eq_none] at hf
        exact absurd (hf row hrow) (by simp)
      | some row' =>
        cases hs : scanBook row' with
        | none => exact ⟨row.id, row', hid, hf, hs⟩
        | some a => simp [selectBook, hid, hf, hs] at he
  · rintro (hmiss | ⟨k, row, hid, hf, hs⟩)
    · exact selectBook_missing db id s hmiss
    · exact ⟨.nullValue, by simp only [selectBook, hid, hf, hs]⟩

/-- C10, as stated, fails: the seeded database has author 1, the connection
fails on the query of `getAuthor`, and the handler returns with status 404; the
process lives. -/
theorem getAuthor_store_failure_is_404 :
    getAuthor heapStore ResponseWriter.fresh (getRequest "/api/go/authors/" "1")
        ⟨seedStore, [true]⟩ = .done ⟨[], some 404, []⟩ ⟨seedStore, []⟩
    ∧ (getAuthor heapStore ResponseWriter.fresh (getRequest "/api/go/authors/" "1")
        ⟨seedStore, [true]⟩).exited = false
    ∧ (World.mk seedStore [true]).run (selectAuthor heapStore "1")
        = (.error .connection, ⟨seedStore, []⟩)
    ∧ (selectAuthor heapStore "1" seedStore).1
        = .ok ⟨1, "Jules", "Verne", "...", "1828-02-08T00:00:00Z"⟩ :=
  ⟨by decide, by decide, rfl, rfl⟩

/-- C10, amended: the list handlers `getAuthors` and `getBooks` end the process
exactly when the connection fails on the query or the `Scan` of a row fails (a
row holds a NULL).  `getAuthor` and `getBook` never end the process, and they
answer 404 exactly when the query and its `Scan` yield no record: the
connection failed, no row has the id the store reads from the request (none at
all when it cannot read the text), or the row found holds a NULL. -/
theorem read_handlers_outcomes (db : DB) (w : ResponseWriter) (r : Request) (c : World)
    (hw : w.Code = none) :
    ((getAuthors db w r c).exited = true ↔
        (c.faults.head? = some true ∨ ∃ row ∈ c.store.authors, scanAuthor row = none))
    ∧ ((getBooks db w r c).exited = true ↔
        (c.faults.head? = some true ∨ ∃ row ∈ c.store.books, scanBook row = none))
    ∧ (getAuthor db w r c).exited = false
    ∧ (getBook db w r c).exited = false
    ∧ ((getAuthor db w r c).response.map ResponseWriter.Status = some 404 ↔
        (c.faults.head? = some true
          ∨ (∀ row ∈ c.store.authors, db.integer (r.Var "id") ≠ some row.id)
          ∨ ∃ k row, db.integer (r.Var "id") = some k
              ∧ c.store.authors.find? (fun x => decide (x.id = k)) = some row
              ∧ scanAuthor row = none))
    ∧ ((getBook db w r c).response.map ResponseWriter.Status = some 404 ↔
        (c.faults.head? = some true
          ∨ (∀ row ∈ c.store.books, db.integer (r.Var "id") ≠ some row.id)
          ∨ ∃ k row, db.integer (r.Var "id") = some k
              ∧ c.store.books.find? (fun x => decide (x.id = k)) = some row
              ∧ scanBook row = none)) := by
  refine ⟨?_, ?_, ?_, ?_, ?_, ?_⟩
  · by_cases hf : c.faults.head? = some true
    · simp [getAuthors, run_fault _ _ hf, Outcome.exited, hf]
    · simp only [getAuthors, run_through _ _ hf, selectAuthors, hf, false_or]
      rw [← scanAuthors_eq_none_iff c.store.authors []]
      cases scanAuthors c.store.authors [] <;> simp [Outcome.exited]
  · by_cases hf : c.faults.head? = some true
    · simp [getBooks, run_fault _ _ hf, Outcome.exited, hf]
    · simp only [getBooks, run_through _ _ hf, selectBooks, hf, false_or]
      rw [← scanBooks_eq_none_iff c.store.books []]
      cases scanBooks c.store.books [] <;> simp [Outcome.exited]
  · rcases hrun : c.run (selectAuthor db (r.Var "id")) with ⟨_ | row, c1⟩ <;>
      simp [getAuthor, hrun, Outcome.exited]
  · rcases hrun : c.run (selectBook db (r.Var "id")) with ⟨_ | row, c1⟩ <;>
      simp [getBook, hrun, Outcome.exited]
  · by_cases hf : c.faults.head? = some true
    · simp [getAuthor, run_fault _ _ hf, Outcome.response, WriteHeader_Status _ _ hw, hf]
    · rw [← selectAuthor_error_iff]
      simp only [getAuthor, run_through _ _ hf, hf, false_or]
      cases hsel : (selectAuthor db (r.Var "id") c.store).1 with
      | error e =>
        simp only [Outcome.response, Option.map, WriteHeader_Status _ _ hw]
        exact ⟨fun _ => ⟨e, rfl⟩, fun _ => trivial⟩
      | ok a =>
        simp only [Outcome.response, Option.map, Encode_Status _ _ hw]
        constructor
        · intro h; exact absurd h (by decide)
        · rintro ⟨e, he⟩; exact absurd he (by simp)
  · by_cases hf : c.faults.head? = some true
    · simp [getBook, run_fault _ _ hf, Outcome.response, WriteHeader_Status _ _ hw, hf]
    · rw [← selectBook_error_iff]
      simp only [getBook, run_through _ _ hf, hf, false_or]
      cases hsel : (selectBook db (r.Var "id") c.store).1 with
      | error e =>
        simp only [Outcome.response, Option.map, WriteHeader_Status _ _ hw]
        exact ⟨fun _ => ⟨e, rfl⟩, fun _ => trivial⟩
      | ok a =>
        simp only [Outcome.response, Option.map, Encode_Status _ _ hw]
        constructor
        · intro h; exact absurd h (by decide)
        · rintro ⟨e, he⟩; exact absurd he (by simp)

/-- C10, amended, at concrete requests: on the seeded database `getAuthor`
answers 404 for id 999 and 200 for id 1; on a database whose author 1 has a
NULL biography it answers 404 for id 1, and `getAuthors` ends the process. -/
theorem read_handlers_outcomes_witness :
    ((getAuthor heapStore ResponseWriter.fresh (getRequest "/api/go/authors/" "999")
        ⟨seedStore, []⟩).response.map ResponseWriter.Status = some 404 ↔
      ((World.mk seedStore []).faults.head? = some true
        ∨ (∀ row ∈ (World.mk seedStore []).store.authors,
            heapStore.integer ((getRequest "/api/go/authors/" "999").Var "id") ≠ some row.id)
        ∨ ∃ k row, heapStore.integer ((getRequest "/api/go/authors/" "999").Var "id") = some k
            ∧ (World.mk seedStore []).store.authors.find? (fun x => decide (x.id = k)) = some row
            ∧ scanAuthor row = none))
    ∧ (getAuthor heapStore ResponseWriter.fresh (getRequest "/api/go/authors/" "999")
        ⟨seedStore, []⟩).response.map ResponseWriter.Status = some 404
    ∧ (getAuthor heapStore ResponseWriter.fresh (getRequest "/api/go/authors/" "1")
        ⟨seedStore, []⟩).response.map ResponseWriter.Status = some 200
    ∧ (getAuthor heapStore ResponseWriter.fresh (getRequest "/api/go/authors/" "1")
        ⟨⟨[⟨1, some "Jules", some "Verne", none, some "1828-02-08T00:00:00Z"⟩], [], 2, 1, none⟩,
          []⟩).response.map ResponseWriter.Status = some 404
    ∧ (getAuthors heapStore ResponseWriter.fresh (listRequest "/api/go/authors")
        ⟨⟨[⟨1, some "Jules", some "Verne", none, some "1828-02-08T00:00:00Z"⟩], [], 2, 1, none⟩,
          []⟩).exited = true :=
  ⟨(read_handlers_outcomes heapStore ResponseWriter.fresh
      (getRequest "/api/go/authors/" "999") ⟨seedStore, []⟩ rfl).2.2.2.2.1,
    by decide, by decide, by decide, by decide⟩

/-! ### Creating -/

theorem find?_append_of_none {α : Type} (p : α → Bool) (l : List α) (x : α)
    (h : l.any p = false) (hx : p x = true) : (l ++ [x]).find? p = some x := by
  induction l with
  | nil => simp [List.find?, hx]
  | cons y l ih =>
    simp only [List.any_cons, Bool.or_eq_false_iff] at h
    simp only [List.cons_append, List.find?_cons, h.1]
    exact ih h.2

theorem insertAuthor_ok (db : DB) (a : Author) (s : Store) (id : Int)
    (h : (insertAuthor db a s).1 = .ok id) :
    ∃ d, db.date a.Birthday = some d ∧ id = s.authorsSeq ∧ id ≤ maxInteger
      ∧ s.authors.any (fun row => row.id = id) = false
      ∧ (insertAuthor db a s).2
          = ⟨s.authors ++ [⟨id, some a.Name, some a.Surname, some a.Biography, some d⟩],
            s.books, id + 1, s.booksSeq, s.users⟩ := by
  unfold insertAuthor at h ⊢
  cases hd : db.date a.Birthday with
  | none => simp [hd] at h
  | some d =>
    simp only [hd] at h ⊢
    by_cases h1 : maxInteger < s.authorsSeq
    · simp [h1] at h
    · by_cases h2 : s.authors.any (fun row => decide (row.id = s.authorsSeq)) = true
      · simp [h1, h2] at h
      · simp only [h1, h2, if_false, Bool.false_eq_true] at h ⊢
        have hid : s.authorsSeq = id := by simpa using h
        subst hid
        exact ⟨d, rfl, rfl, not_lt.mp h1, by simpa using h2, rfl⟩

/-- C4, amended: when `createAuthor` returns, the record it answers with is the
decoded body with the id the store assigned, the store accepted the birthday
text as a date, and `getAuthor` on the returned id (the connection holding)
answers with a record that has this id, the name, surname and biography
supplied, and for birthday the text the store yields for that date. -/
theorem createAuthor_then_getAuthor (db : DB) (w w1 : ResponseWriter) (r : Request)
    (c c1 : World) (hcreate : createAuthor db w r c = .done w1 c1) :
    ∃ (id : Int) (d : String),
      w1 = w.Encode (.author { r.BodyAuthor with ID := id })
      ∧ db.date r.BodyAuthor.Birthday = some d
      ∧ ∀ (w2 : ResponseWriter) (r2 : Request),
          db.integer (r2.Var "id") = some id → c1.faults.head? ≠ some true →
          getAuthor db w2 r2 c1 = .done (w2.Encode (.author
              ⟨id, r.BodyAuthor.Name, r.BodyAuthor.Surname, r.BodyAuthor.Biography, d⟩))
            ⟨c1.store, c1.faults.tail⟩ := by
  by_cases hf : c.faults.head? = some true
  · simp [createAuthor, run_fault _ _ hf] at hcreate
  · rw [createAuthor] at hcreate
    simp only [run_through _ _ hf] at hcreate
    cases hins : (insertAuthor db r.BodyAuthor c.store).1 with
    | error e => simp [hins] at hcreate
    | ok id =>
      simp only [hins, Outcome.done.injEq] at hcreate
      obtain ⟨d, hd, hid, _, hany, hst⟩ := insertAuthor_ok db _ _ id hins
      refine ⟨id, d, hcreate.1.symm, hd, ?_⟩
      intro w2 r2 hr2 hf2
      rw [← hcreate.2, hst] at hf2 ⊢
      simp only [getAuthor]
      rw [run_through _ _ hf2]
      simp only [selectAuthor, hr2]
      rw [find?_append_of_none _ _ _ hany (by simp)]
      rfl

/-- C4, as stated, fails, on the record of the spec: Jules Verne is created
with birthday `1828-02-08` on the empty database, the insert succeeds with id
1, and `getAuthor` on id 1 answers with the birthday `1828-02-08T00:00:00Z`,
the text `Scan` writes for the stored date, which is not the text supplied. -/
theorem createAuthor_birthday_not_echoed :
    createAuthor heapStore ResponseWriter.fresh
        (Op.createAuthor ⟨0, "Jules", "Verne", "...", "1828-02-08"⟩).request ⟨Store.empty, []⟩
      = .done ⟨[], some 200, [.author ⟨1, "Jules", "Verne", "...", "1828-02-08"⟩]⟩
          ⟨⟨[⟨1, some "Jules", some "Verne", some "...", some "1828-02-08T00:00:00Z"⟩],
            [], 2, 1, none⟩, []⟩
    ∧ getAuthor heapStore ResponseWriter.fresh (getRequest "/api/go/authors/" "1")
        ⟨⟨[⟨1, some "Jules", some "Verne", some "...", some "1828-02-08T00:00:00Z"⟩],
          [], 2, 1, none⟩, []⟩
      = .done ⟨[], some 200, [.author ⟨1, "Jules", "Verne", "...", "1828-02-08T00:00:00Z"⟩]⟩
          ⟨⟨[⟨1, some "Jules", some "Verne", some "...", some "1828-02-08T00:00:00Z"⟩],
            [], 2, 1, none⟩, []⟩
    ∧ (Author.mk 1 "Jules" "Verne" "..." "1828-02-08T00:00:00Z").Birthday ≠ "1828-02-08" := by
  decide

/-- C4, amended, at a concrete input: an author born `1869-7-1` is created on
the seeded database with id 2; read back, the record has the name, surname and
biography supplied and the birthday `1869-07-01T00:00:00Z`, which is what the
store yields for the date it read. -/
theorem createAuthor_then_getAuthor_witness :
    heapStore.date "1869-7-1" = some "1869-07-01T00:00:00Z"
    ∧ (createAuthor heapStore ResponseWriter.fresh
        (Op.createAuthor ⟨0, "Herbert", "Wells", "...", "1869-7-1"⟩).request ⟨seedStore, []⟩
      = .done ⟨[], some 200, [.author ⟨2, "Herbert", "Wells", "...", "1869-7-1"⟩]⟩
          ⟨⟨[⟨1, some "Jules", some "Verne", some "...", some "1828-02-08T00:00:00Z"⟩,
             ⟨2, some "Herbert", some "Wells", some "...", some "1869-07-01T00:00:00Z"⟩],
            [⟨1, some "A", some 1, some "isbn", some 1870⟩], 3, 2, none⟩, []⟩)
    ∧ ∃ (id : Int) (d : String),
        (ResponseWriter.mk [] (some 200) [.author ⟨2, "Herbert", "Wells", "...", "1869-7-1"⟩])
          = ResponseWriter.fresh.Encode (.author
              { (Op.createAuthor ⟨0, "Herbert", "Wells", "...", "1869-7-1"⟩).request.BodyAuthor
                with ID := id })
        ∧ heapStore.date
            (Op.createAuthor ⟨0, "Herbert", "Wells", "...", "1869-7-1"⟩).request.BodyAuthor.Birthday
          = some d
        ∧ ∀ (w2 : ResponseWriter) (r2 : Request),
            heapStore.integer (r2.Var "id") = some id →
            (World.mk ⟨[⟨1, some "Jules", some "Verne", some "...", some "1828-02-08T00:00:00Z"⟩,
                  ⟨2, some "Herbert", some "Wells", some "...", some "1869-07-01T00:00:00Z"⟩],
                [⟨1, some "A", some 1, some "isbn", some 1870⟩], 3, 2, none⟩ []).faults.head?
              ≠ some true →
            getAuthor heapStore w2 r2
                ⟨⟨[⟨1, some "Jules", some "Verne", some "...", some "1828-02-08T00:00:00Z"⟩,
                   ⟨2, some "Herbert", some "Wells", some "...", some "1869-07-01T00:00:00Z"⟩],
                  [⟨1, some "A", some 1, some "isbn", some 1870⟩], 3, 2, none⟩, []⟩
              = .done (w2.Encode (.author ⟨id, "Herbert", "Wells", "...", d⟩))
                  ⟨⟨[⟨1, some "Jules", some "Verne", some "...", some "1828-02-08T00:00:00Z"⟩,
                     ⟨2, some "Herbert", some "Wells", some "...", some "1869-07-01T00:00:00Z"⟩],
                    [⟨1, some "A", some 1, some "isbn", some 1870⟩], 3, 2, none⟩, []⟩ :=
  ⟨by decide, by decide,
    createAuthor_then_getAuthor heapStore ResponseWriter.fresh _
      (Op.createAuthor ⟨0, "Herbert", "Wells", "...", "1869-7-1"⟩).request ⟨seedStore, []⟩
      ⟨⟨[⟨1, some "Jules", some "Verne", some "...", some "1828-02-08T00:00:00Z"⟩,
         ⟨2, some "Herbert", some "Wells", some "...", some "1869-07-01T00:00:00Z"⟩],
        [⟨1, some "A", some 1, some "isbn", some 1870⟩], 3, 2, none⟩, []⟩ (by decide)⟩

/-! ### Listing -/

theorem scanAuthor_ID (row : AuthorRow) (a : Author) (h : scanAuthor row = some a) :
    a.ID = row.id := by
  unfold scanAuthor at h
  split at h
  · simp only [Option.some.injEq] at h; rw [← h]
  · exact absurd h (by simp)

theorem scanBook_ID (row : BookRow) (b : Book) (h : scanBook row = some b) :
    b.ID = row.id := by
  unfold scanBook at h
  split at h
  · simp only [Option.some.injEq] at h; rw [← h]
  · exact absurd h (by simp)

theorem scanAuthors_of_map (rows : List AuthorRow) (authors acc : List Author)
    (h : rows.map scanAuthor = authors.map some) :
    scanAuthors rows acc = some (acc ++ authors) := by
  induction rows generalizing authors acc with
  | nil =>
    cases authors with
    | nil => simp [scanAuthors]
    | cons a l => simp at h
  | cons row rows ih =>
    cases authors with
    | nil => simp at h
    | cons a l =>
      simp only [List.map_cons, List.cons.injEq] at h
      simp only [scanAuthors, h.1]
      rw [ih l (acc ++ [a]) h.2]
      simp

theorem scanBooks_of_map (rows : List BookRow) (books acc : List Book)
    (h : rows.map scanBook = books.map some) :
    scanBooks rows acc = some (acc ++ books) := by
  induction rows generalizing books acc with
  | nil =>
    cases books with
    | nil => simp [scanBooks]
    | cons a l => simp at h
  | cons row rows ih =>
    cases books with
    | nil => simp at h
    | cons a l =>
      simp only [List.map_cons, List.cons.injEq] at h
      simp only [scanBooks, h.1]
      rw [ih l (acc ++ [a]) h.2]
      simp

theorem exists_scanned {α β : Type} (scan : α → Option β) (rows : List α)
    (h : ∀ row ∈ rows, (scan row).isSome = true) :
    ∃ l : List β, rows.map scan = l.map some := by
  induction rows with
  | nil => exact ⟨[], rfl⟩
  | cons row rows ih =>
    obtain ⟨l, hl⟩ := ih (fun x hx => h x (List.mem_cons_of_mem _ hx))
    obtain ⟨b, hb⟩ := Option.isSome_iff_exists.mp (h row (List.mem_cons_self _ _))
    exact ⟨b :: l, by simp [hb, hl]⟩

theorem map_ID_of_scanned {α β : Type} (scan : α → Option β) (key : α → Int) (ID : β → Int)
    (hkey : ∀ row b, scan row = some b → ID b = key row) (rows : List α) (l : List β)
    (h : rows.map scan = l.map some) : l.map ID = rows.map key := by
  induction rows generalizing l with
  | nil =>
    cases l with
    | nil => rfl
    | cons a l => simp at h
  | cons row rows ih =>
    cases l with
    | nil => simp at h
    | cons b l =>
      simp only [List.map_cons, List.cons.injEq] at h
      simp only [List.map_cons, hkey row b h.1, ih l h.2]

theorem getAuthors_eq (db : DB) (w : ResponseWriter) (r : Request) (c : World)
    (authors : List Author) (h : c.store.authors.map scanAuthor = authors.map some) :
    getAuthors db w r c =
      if c.faults.head? = some true then .exit ⟨c.store, c.faults.tail⟩
      else .done (w.Encode (.authors authors)) ⟨c.store, c.faults.tail⟩ := by
  by_cases hf : c.faults.head? = some true
  · simp [getAuthors, run_fault _ _ hf, hf]
  · simp [getAuthors, run_through _ _ hf, hf, selectAuthors, scanAuthors_of_map _ _ _ h]

theorem getBooks_eq (db : DB) (w : ResponseWriter) (r : Request) (c : World)
    (books : List Book) (h : c.store.books.map scanBook = books.map some) :
    getBooks db w r c =
      if c.faults.head? = some true then .exit ⟨c.store, c.faults.tail⟩
      else .done (w.Encode (.books books)) ⟨c.store, c.faults.tail⟩ := by
  by_cases hf : c.faults.head? = some true
  · simp [getBooks, run_fault _ _ hf, hf]
  · simp [getBooks, run_through _ _ hf, hf, selectBooks, scanBooks_of_map _ _ _ h]

theorem mem_updateRows {α : Type} (b : Bool) (p : α → Bool) (f : α → α) (rows : List α) (y : α)
    (h : y ∈ updateRows b p f rows) : y ∈ rows ∨ ∃ x ∈ rows, y = f x := by
  unfold updateRows at h
  split at h
  · obtain ⟨x, hx, e⟩ := List.mem_map.mp h
    by_cases hp : p x = true
    · simp only [hp, if_true] at e; exact Or.inr ⟨x, hx, e.symm⟩
    · simp only [hp, if_false] at e; rw [← e]; exact Or.inl hx
  · rcases List.mem_append.mp h with h | h
    · exact Or.inl (List.mem_filter.mp h).1
    · obtain ⟨x, hx, e⟩ := List.mem_map.mp h
      exact Or.inr ⟨x, (List.mem_filter.mp hx).1, e.symm⟩

theorem Keys.succ {b : Bool} {ids : List Int} {seq : Int} (h : Keys b ids seq) :
    Keys b ids (seq + 1) :=
  ⟨h.1, fun i hi => lt_trans (h.2.1 i hi) (lt_add_one seq), h.2.2⟩

theorem Keys.append {b : Bool} {ids : List Int} {seq : Int} (h : Keys b ids seq) :
    Keys b (ids ++ [seq]) (seq + 1) := by
  refine ⟨?_, ?_, ?_⟩
  · rw [List.nodup_append]
    refine ⟨h.1, List.nodup_singleton _, ?_⟩
    intro i hi hi'
    rw [List.mem_singleton] at hi'
    subst hi'
    exact lt_irrefl _ (h.2.1 _ hi)
  · intro i hi
    rw [List.mem_append, List.mem_singleton] at hi
    rcases hi with hi | hi
    · exact lt_trans (h.2.1 i hi) (lt_add_one seq)
    · rw [hi]; exact lt_add_one seq
  · intro hb
    rw [List.pairwise_append]
    refine ⟨h.2.2 hb, List.pairwise_singleton _ _, ?_⟩
    intro i hi j hj
    rw [List.mem_singleton] at hj
    rw [hj]; exact h.2.1 i hi

theorem Keys.sublist {b : Bool} {ids ids' : List Int} {seq : Int} (h : Keys b ids seq)
    (hs : ids'.Sublist ids) : Keys b ids' seq :=
  ⟨h.1.sublist hs, fun i hi => h.2.1 i (hs.subset hi), fun hb => (h.2.2 hb).sublist hs⟩

theorem updateRows_keys {α : Type} (b : Bool) (p : α → Bool) (f : α → α) (key : α → Int)
    (rows : List α) (seq : Int) (hf : ∀ r, key (f r) = key r)
    (h : Keys b (rows.map key) seq) : Keys b ((updateRows b p f rows).map key) seq := by
  cases b with
  | true =>
    have : (updateRows true p f rows).map key = rows.map key := by
      simp only [updateRows, if_true, List.map_map]
      apply List.map_congr_left
      intro r _
      simp only [Function.comp]
      split
      · exact hf r
      · rfl
    rw [this]; exact h
  | false =>
    have hperm : ((updateRows false p f rows).map key).Perm (rows.map key) := by
      have h1 : (updateRows false p f rows).map key
          = ((rows.filter (fun r => !p r)) ++ rows.filter p).map key := by
        simp only [updateRows, Bool.false_eq_true, if_false, List.map_append, List.map_map]
        congr 1
        apply List.map_congr_left
        intro r _
        exact hf r
      rw [h1]
      apply List.Perm.map
      have := List.filter_append_perm p rows
      exact (List.perm_append_comm).trans (by simpa using this)
    exact ⟨hperm.nodup_iff.mpr h.1, fun i hi => h.2.1 i (hperm.subset hi),
      fun hb => absurd hb (by decide)⟩

theorem insertAuthor_keyed (db : DB) (b : Bool) (a : Author) (s : Store) (h : s.Keyed b) :
    (insertAuthor db a s).2.Keyed b := by
  unfold insertAuthor
  split
  · exact h
  · dsimp only
    split
    · exact ⟨h.1.succ, h.2⟩
    · split
      · exact ⟨h.1.succ, h.2⟩
      · refine ⟨?_, h.2.1, ?_, h.2.2.2⟩
        · have := h.1.append
          simpa using this
        · intro row hrow
          rcases List.mem_append.mp hrow with hrow | hrow
          · exact h.2.2.1 row hrow
          · rw [List.mem_singleton.mp hrow]; rfl

theorem insertBook_keyed (db : DB) (b : Bool) (a : Book) (s : Store) (h : s.Keyed b) :
    (insertBook db a s).2.Keyed b := by
  unfold insertBook
  split
  · dsimp only
    split
    · exact ⟨h.1, h.2.1.succ, h.2.2⟩
    · split
      · exact ⟨h.1, h.2.1.succ, h.2.2⟩
      · refine ⟨h.1, ?_, h.2.2.1, ?_⟩
        · have := h.2.1.append
          simpa using this
        · intro row hrow
          rcases List.mem_append.mp hrow with hrow | hrow
          · exact h.2.2.2 row hrow
          · rw [List.mem_singleton.mp hrow]; rfl
  · exact h

theorem updateAuthorRow_keyed (db : DB) (a : Author) (id : String) (s : Store)
    (h : s.Keyed db.inPlace) : (updateAuthorRow db a id s).2.Keyed db.inPlace := by
  unfold updateAuthorRow
  split
  · refine ⟨updateRows_keys _ _ _ _ _ _ (fun _ => rfl) h.1, h.2.1, ?_, h.2.2.2⟩
    intro row hrow
    rcases mem_updateRows _ _ _ _ _ hrow with hrow | ⟨x, _, e⟩
    · exact h.2.2.1 row hrow
    · rw [e]; rfl
  · exact h

theorem updateBookRow_keyed (db : DB) (a : Book) (id : String) (s : Store)
    (h : s.Keyed db.inPlace) : (updateBookRow db a id s).2.Keyed db.inPlace := by
  unfold updateBookRow
  split
  · refine ⟨h.1, updateRows_keys _ _ _ _ _ _ (fun _ => rfl) h.2.1, h.2.2.1, ?_⟩
    intro row hrow
    rcases mem_updateRows _ _ _ _ _ hrow with hrow | ⟨x, _, e⟩
    · exact h.2.2.2 row hrow
    · rw [e]; rfl
  · exact h

theorem deleteUsersRow_keyed (db : DB) (b : Bool) (id : String) (s : Store) (h : s.Keyed b) :
    (deleteUsersRow db id s).2.Keyed b := by
  unfold deleteUsersRow
  split
  · exact h
  · split <;> exact h

theorem deleteBookRow_keyed (db : DB) (b : Bool) (id : String) (s : Store) (h : s.Keyed b) :
    (deleteBookRow db id s).2.Keyed b := by
  unfold deleteBookRow
  split
  · exact h
  · exact ⟨h.1, h.2.1.sublist ((List.filter_sublist _).map _), h.2.2.1,
      fun row hrow => h.2.2.2 row (List.mem_filter.mp hrow).1⟩

theorem run_keyed {α : Type} (b : Bool) (c : World) (stmt : Store → Except SqlError α × Store)
    (h : c.store.Keyed b) (hs : (stmt c.store).2.Keyed b) : (c.run stmt).2.store.Keyed b := by
  rcases run_store c stmt with e | e <;> rw [e]
  · exact h
  · exact hs

theorem createAuthor_keyed (db : DB) (w : ResponseWriter) (r : Request) (c : World)
    (h : c.store.Keyed db.inPlace) : (createAuthor db w r c).world.store.Keyed db.inPlace := by
  have h1 := run_keyed _ c (insertAuthor db r.BodyAuthor) h (insertAuthor_keyed db _ _ _ h)
  rcases hrun : c.run (insertAuthor db r.BodyAuthor) with ⟨_ | id, c1⟩ <;>
    rw [hrun] at h1 <;> simp only [createAuthor, hrun, Outcome.world] <;> exact h1

theorem createBook_keyed (db : DB) (w : ResponseWriter) (r : Request) (c : World)
    (h : c.store.Keyed db.inPlace) : (createBook db w r c).world.store.Keyed db.inPlace := by
  have h1 := run_keyed _ c (insertBook db r.BodyBook) h (insertBook_keyed db _ _ _ h)
  rcases hrun : c.run (insertBook db r.BodyBook) with ⟨_ | id, c1⟩ <;>
    rw [hrun] at h1 <;> simp only [createBook, hrun, Outcome.world] <;> exact h1

theorem updateAuthor_keyed (db : DB) (w : ResponseWriter) (r : Request) (c : World)
    (h : c.store.Keyed db.inPlace) : (updateAuthor db w r c).world.store.Keyed db.inPlace := by
  have h1 := run_keyed _ c (updateAuthorRow db r.BodyAuthor (r.Var "id")) h
    (updateAuthorRow_keyed db _ _ _ h)
  rcases hrun : c.run (updateAuthorRow db r.BodyAuthor (r.Var "id")) with ⟨_ | n, c1⟩ <;>
    rw [hrun] at h1 <;> simp only at h1
  · simp only [updateAuthor, hrun, Outcome.world]; exact h1
  · have h2 := run_keyed _ c1 (selectAuthor db (r.Var "id")) h1
      (by rw [selectAuthor_store]; exact h1)
    rcases hrun2 : c1.run (selectAuthor db (r.Var "id")) with ⟨_ | row, c2⟩ <;>
      rw [hrun2] at h2 <;> simp only [updateAuthor, hrun, hrun2, Outcome.world] <;> exact h2

theorem updateBook_keyed (db : DB) (w : ResponseWriter) (r : Request) (c : World)
    (h : c.store.Keyed db.inPlace) : (updateBook db w r c).world.store.Keyed db.inPlace := by
  have h1 := run_keyed _ c (updateBookRow db r.BodyBook (r.Var "id")) h
    (updateBookRow_keyed db _ _ _ h)
  rcases hrun : c.run (updateBookRow db r.BodyBook (r.Var "id")) with ⟨_ | n, c1⟩ <;>
    rw [hrun] at h1 <;> simp only at h1
  · simp only [updateBook, hrun, Outcome.world]; exact h1
  · have h2 := run_keyed _ c1 (selectBook db (r.Var "id")) h1
      (by rw [selectBook_store]; exact h1)
    rcases hrun2 : c1.run (selectBook db (r.Var "id")) with ⟨_ | row, c2⟩ <;>
      rw [hrun2] at h2 <;> simp only [updateBook, hrun, hrun2, Outcome.world] <;> exact h2

theorem deleteUser_keyed (db : DB) (w : ResponseWriter) (r : Request) (c : World)
    (h : c.store.Keyed db.inPlace) : (deleteUser db w r c).world.store.Keyed db.inPlace := by
  have h1 := run_keyed _ c (selectAuthor db (r.Var "id")) h
    (by rw [selectAuthor_store]; exact h)
  rcases hrun : c.run (selectAuthor db (r.Var "id")) with ⟨_ | row, c1⟩ <;>
    rw [hrun] at h1 <;> simp only at h1
  · simp only [deleteUser, hrun, Outcome.world]; exact h1
  · have h2 := run_keyed _ c1 (deleteUsersRow db (r.Var "id")) h1
      (deleteUsersRow_keyed db _ _ _ h1)
    rcases hrun2 : c1.run (deleteUsersRow db (r.Var "id")) with ⟨_ | n, c2⟩ <;>
      rw [hrun2] at h2 <;> simp only [deleteUser, hrun, hrun2, Outcome.world] <;> exact h2

theorem deleteBook_keyed (db : DB) (w : ResponseWriter) (r : Request) (c : World)
    (h : c.store.Keyed db.inPlace) : (deleteBook db w r c).world.store.Keyed db.inPlace := by
  have h1 := run_keyed _ c (selectBook db (r.Var "id")) h
    (by rw [selectBook_store]; exact h)
  rcases hrun : c.run (selectBook db (r.Var "id")) with ⟨_ | row, c1⟩ <;>
    rw [hrun] at h1 <;> simp only at h1
  · simp only [deleteBook, hrun, Outcome.world]; exact h1
  · have h2 := run_keyed _ c1 (deleteBookRow db (r.Var "id")) h1
      (deleteBookRow_keyed db _ _ _ h1)
    rcases hrun2 : c1.run (deleteBookRow db (r.Var "id")) with ⟨_ | n, c2⟩ <;>
      rw [hrun2] at h2 <;> simp only [deleteBook, hrun, hrun2, Outcome.world] <;> exact h2

theorem Op.handler_keyed (db : DB) (op : Op) (w : ResponseWriter) (r : Request) (c : World)
    (h : c.store.Keyed db.inPlace) : (op.handler db w r c).world.store.Keyed db.inPlace := by
  cases op <;> simp only [Op.handler]
  · exact createAuthor_keyed db w r c h
  · exact updateAuthor_keyed db w r c h
  · exact deleteUser_keyed db w r c h
  · exact createBook_keyed db w r c h
  · exact updateBook_keyed db w r c h
  · exact deleteBook_keyed db w r c h

theorem runOps_keyed (db : DB) (ops : List Op) (c0 c : World)
    (h : c0.store.Keyed db.inPlace) (hrun : runOps db ops c0 = some c) :
    c.store.Keyed db.inPlace := by
  induction ops generalizing c0 with
  | nil =>
    simp only [runOps, Option.some.injEq] at hrun
    rw [← hrun]; exact h
  | cons op ops ih =>
    have hk := Op.handler_keyed db op ResponseWriter.fresh op.request c0 h
    simp only [runOps] at hrun
    cases hop : op.handler db ResponseWriter.fresh op.request c0 with
    | exit s => simp [hop] at hrun
    | done w c1 =>
      rw [hop] at hrun hk
      simp only at hrun
      split at hrun
      · exact ih c1 hk hrun
      · exact absurd hrun (by simp)

/-- C6, amended: `getAuthors` and `getBooks` end the process when the
connection fails on the query and otherwise encode one record per row of the
table, the `Scan` of that row, in the order the store yields the rows, none
dropped, duplicated or reordered.  After any sequence of successful create,
update and delete calls on empty tables no id is listed twice, and the listing
is in insertion order (ascending id) when the store rewrites updated rows in
place; the query has no `ORDER BY`, so the order is the store's. -/
theorem list_after_ops (db : DB) (ops : List Op) (c0 c : World) (w : ResponseWriter)
    (r : Request) (hauthors : c0.store.authors = []) (hbooks : c0.store.books = [])
    (hrun : runOps db ops c0 = some c) :
    ∃ (authors : List Author) (books : List Book),
      c.store.authors.map scanAuthor = authors.map some
      ∧ c.store.books.map scanBook = books.map some
      ∧ (getAuthors db w r c =
        if c.faults.head? = some true then .exit ⟨c.store, c.faults.tail⟩
        else .done (w.Encode (.authors authors)) ⟨c.store, c.faults.tail⟩)
      ∧ (getBooks db w r c =
        if c.faults.head? = some true then .exit ⟨c.store, c.faults.tail⟩
        else .done (w.Encode (.books books)) ⟨c.store, c.faults.tail⟩)
      ∧ (authors.map (fun a => a.ID)).Nodup
      ∧ (books.map (fun b => b.ID)).Nodup
      ∧ (db.inPlace = true →
          (authors.map (fun a => a.ID)).Pairwise (· < ·)
          ∧ (books.map (fun b => b.ID)).Pairwise (· < ·)) := by
  have h0 : c0.store.Keyed db.inPlace := by
    simp [Store.Keyed, Keys, hauthors, hbooks]
  have hk := runOps_keyed db ops c0 c h0 hrun
  obtain ⟨authors, ha⟩ := exists_scanned scanAuthor c.store.authors hk.2.2.1
  obtain ⟨books, hb⟩ := exists_scanned scanBook c.store.books hk.2.2.2
  have ea : authors.map (fun a => a.ID) = c.store.authors.map (fun row => row.id) :=
    map_ID_of_scanned scanAuthor _ _ scanAuthor_ID _ _ ha
  have eb : books.map (fun b => b.ID) = c.store.books.map (fun row => row.id) :=
    map_ID_of_scanned scanBook _ _ scanBook_ID _ _ hb
  refine ⟨authors, books, ha, hb, getAuthors_eq db w r c authors ha,
    getBooks_eq db w r c books hb, ?_, ?_, ?_⟩
  · rw [ea]; exact hk.1.1
  · rw [eb]; exact hk.2.1.1
  · intro hin
    rw [ea, eb]
    exact ⟨hk.1.2.2 hin, hk.2.1.2.2 hin⟩

/-- C6, as stated, fails: on a store that writes the new version of an updated
row behind the other rows, two authors are created (ids 1 and 2), author 1 is
updated, all three calls succeed, and `getAuthors` lists author 2 before
author 1. -/
theorem getAuthors_not_in_insertion_order :
    runOps heapStore
        [Op.createAuthor ⟨0, "Jules", "Verne", "...", "1828-02-08"⟩,
         Op.createAuthor ⟨0, "Herbert", "Wells", "...", "1866-09-21"⟩,
         Op.updateAuthor "1" ⟨0, "Jules Gabriel", "Verne", "...", "1828-02-08"⟩]
        ⟨Store.empty, []⟩
      = some ⟨⟨[⟨2, some "Herbert", some "Wells", some "...", some "1866-09-21T00:00:00Z"⟩,
                ⟨1, some "Jules Gabriel", some "Verne", some "...",
                  some "1828-02-08T00:00:00Z"⟩], [], 3, 1, none⟩, []⟩
    ∧ getAuthors heapStore ResponseWriter.fresh (listRequest "/api/go/authors")
        ⟨⟨[⟨2, some "Herbert", some "Wells", some "...", some "1866-09-21T00:00:00Z"⟩,
           ⟨1, some "Jules Gabriel", some "Verne", some "...", some "1828-02-08T00:00:00Z"⟩],
          [], 3, 1, none⟩, []⟩
      = .done ⟨[], some 200,
          [.authors [⟨2, "Herbert", "Wells", "...", "1866-09-21T00:00:00Z"⟩,
            ⟨1, "Jules Gabriel", "Verne", "...", "1828-02-08T00:00:00Z"⟩]]⟩
          ⟨⟨[⟨2, some "Herbert", some "Wells", some "...", some "1866-09-21T00:00:00Z"⟩,
             ⟨1, some "Jules Gabriel", some "Verne", some "...", some "1828-02-08T00:00:00Z"⟩],
            [], 3, 1, none⟩, []⟩
    ∧ ¬ ([2, 1] : List Int).Pairwise (· < ·) := by
  refine ⟨by decide, by decide, by decide⟩

/-- C6, amended, on a concrete run: on a store that rewrites updated rows in
place, a book is created and updated, two more are created and the first is
deleted; `getBooks` lists what is left, by ascending id. -/
theorem list_after_ops_witness :
    runOps inPlaceStore
        [Op.createBook ⟨0, "A", "1", "isbn", "1870"⟩, Op.updateBook "1" ⟨0, "B", "1", "isbn", "1871"⟩,
         Op.createBook ⟨0, "C", "2", "isbn", "1900"⟩, Op.createBook ⟨0, "D", "2", "isbn", "1901"⟩,
         Op.deleteBook "1"]
        ⟨Store.empty, []⟩
      = some ⟨⟨[], [⟨2, some "C", some 2, some "isbn", some 1900⟩,
          ⟨3, some "D", some 2, some "isbn", some 1901⟩], 1, 4, none⟩, []⟩
    ∧ getBooks inPlaceStore ResponseWriter.fresh (listRequest "/api/go/books")
        ⟨⟨[], [⟨2, some "C", some 2, some "isbn", some 1900⟩,
          ⟨3, some "D", some 2, some "isbn", some 1901⟩], 1, 4, none⟩, []⟩
      = .done ⟨[], some 200,
          [.books [⟨2, "C", "2", "isbn", "1900"⟩, ⟨3, "D", "2", "isbn", "1901"⟩]]⟩
          ⟨⟨[], [⟨2, some "C", some 2, some "isbn", some 1900⟩,
            ⟨3, some "D", some 2, some "isbn", some 1901⟩], 1, 4, none⟩, []⟩
    ∧ ∃ (authors : List Author) (books : List Book),
        ([] : List AuthorRow).map scanAuthor = authors.map some
        ∧ ([⟨2, some "C", some 2, some "isbn", some 1900⟩,
            ⟨3, some "D", some 2, some "isbn", some 1901⟩] : List BookRow).map scanBook
          = books.map some
        ∧ (authors.map (fun a => a.ID)).Nodup
        ∧ (books.map (fun b => b.ID)).Nodup
        ∧ (books.map (fun b => b.ID)).Pairwise (· < ·) :=
  ⟨by decide, by decide,
    (list_after_ops inPlaceStore
        [Op.createBook ⟨0, "A", "1", "isbn", "1870"⟩, Op.updateBook "1" ⟨0, "B", "1", "isbn", "1871"⟩,
         Op.createBook ⟨0, "C", "2", "isbn", "1900"⟩, Op.createBook ⟨0, "D", "2", "isbn", "1901"⟩,
         Op.deleteBook "1"]
        ⟨Store.empty, []⟩
        ⟨⟨[], [⟨2, some "C", some 2, some "isbn", some 1900⟩,
          ⟨3, some "D", some 2, some "isbn", some 1901⟩], 1, 4, none⟩, []⟩
        ResponseWriter.fresh (listRequest "/api/go/books") rfl rfl (by decide)).imp
      fun _ h => h.imp fun _ h => ⟨h.1, h.2.1, h.2.2.2.2.1, h.2.2.2.2.2.1,
        (h.2.2.2.2.2.2 rfl).2⟩⟩

/-! ### The joint update -/

/-- C1: in the joint update as the spec describes it, when the author update
fails or the commit fails, the database after the call is the database before
it: the book update that ran first is rolled back. -/
theorem updateBookAndAuthor_rolls_back (db : DB) (bookID authorID : String)
    (newBookFields : Book) (newAuthorFields : Author) (c : World)
    (h : (∃ e, (updateBookAndAuthor db bookID authorID newBookFields newAuthorFields c).1
          = .error (.authorUpdate e))
      ∨ (∃ e, (updateBookAndAuthor db bookID authorID newBookFields newAuthorFields c).1
          = .error (.commit e))) :
    (updateBookAndAuthor db bookID authorID newBookFields newAuthorFields c).2.store
      = c.store := by
  have h0 := run_store_of_readonly c (fun s => (Except.ok (), s)) (fun _ => rfl)
  unfold updateBookAndAuthor at h ⊢
  rcases hrun0 : c.run (fun s => (Except.ok (), s)) with ⟨_ | u, c0⟩
  · rw [hrun0] at h0
    simp only [hrun0] at h ⊢
    exact h0
  · rw [hrun0] at h0
    simp only at h0
    simp only [hrun0] at h ⊢
    rcases hrun1 : c0.run (updateBookRow db newBookFields bookID) with ⟨_ | n, c1⟩
    · simp only [hrun1] at h ⊢; exact h0
    · cases n with
      | zero => simp only [hrun1] at h ⊢; exact h0
      | succ n =>
        simp only [hrun1] at h ⊢
        rcases hrun2 : c1.run (updateAuthorRow db newAuthorFields authorID) with ⟨_ | m, c2⟩
        · simp only [hrun2] at h ⊢; exact h0
        · cases m with
          | zero => simp only [hrun2] at h ⊢; exact h0
          | succ m =>
            simp only [hrun2] at h ⊢
            rcases hrun3 : c2.run (fun s => (Except.ok (), s)) with ⟨_ | u, c3⟩
            · simp only [hrun3] at h ⊢; exact h0
            · simp only [hrun3] at h ⊢
              rcases hrun4 : c3.run (selectBook db bookID) with ⟨_ | book, c4⟩
              · simp [hrun4] at h
              · simp only [hrun4] at h ⊢
                rcases hrun5 : c4.run (selectAuthor db authorID) with ⟨_ | author, c5⟩ <;>
                  simp [hrun5] at h

/-- C1 on the scenario of the spec: book 1 has title `A`, author 999 does not
exist, the joint update with new title `B` fails at the author update, the
database is unchanged and `getBook` still reads title `A`. -/
theorem updateBookAndAuthor_rolls_back_witness :
    (updateBookAndAuthor heapStore "1" "999" ⟨0, "B", "1", "isbn", "1870"⟩
        ⟨0, "Jules", "Verne", "...", "1828-02-08"⟩ ⟨seedStore, []⟩).1
      = .error (.authorUpdate .noRows)
    ∧ (updateBookAndAuthor heapStore "1" "999" ⟨0, "B", "1", "isbn", "1870"⟩
        ⟨0, "Jules", "Verne", "...", "1828-02-08"⟩ ⟨seedStore, []⟩).2.store = seedStore
    ∧ getBook heapStore ResponseWriter.fresh (getRequest "/api/go/books/" "1")
        (updateBookAndAuthor heapStore "1" "999" ⟨0, "B", "1", "isbn", "1870"⟩
          ⟨0, "Jules", "Verne", "...", "1828-02-08"⟩ ⟨seedStore, []⟩).2
      = .done ⟨[], some 200, [.book ⟨1, "A", "1", "isbn", "1870"⟩]⟩ ⟨seedStore, []⟩
    ∧ (World.mk seedStore []).run (updateBookRow heapStore ⟨0, "B", "1", "isbn", "1870"⟩ "1")
      = (.ok 1, ⟨⟨[⟨1, some "Jules", some "Verne", some "...", some "1828-02-08T00:00:00Z"⟩],
          [⟨1, some "B", some 1, some "isbn", some 1870⟩], 2, 2, none⟩, []⟩) :=
  ⟨rfl,
    updateBookAndAuthor_rolls_back heapStore "1" "999" ⟨0, "B", "1", "isbn", "1870"⟩
      ⟨0, "Jules", "Verne", "...", "1828-02-08"⟩ ⟨seedStore, []⟩ (Or.inl ⟨_, rfl⟩),
    by decide, rfl⟩

/-! ### Updating a row that exists -/

theorem find?_updateRows {α : Type} (b : Bool) (p : α → Bool) (f : α → α) (x0 : α)
    (rows : List α) (hf : ∀ x, p x = true → f x = x0) (hp : p x0 = true)
    (hex : ∃ x ∈ rows, p x = true) : (updateRows b p f rows).find? p = some x0 := by
  cases b with
  | true =>
    simp only [updateRows, if_true]
    induction rows with
    | nil => obtain ⟨x, hx, _⟩ := hex; exact absurd hx (List.not_mem_nil _)
    | cons y ys ih =>
      by_cases hy : p y = true
      · simp [List.find?, hy, hf y hy, hp]
      · obtain ⟨x, hx, hpx⟩ := hex
        rcases List.mem_cons.mp hx with e | hx'
        · rw [e] at hpx; exact absurd hpx hy
        · simp only [List.map_cons, hy, if_false, List.find?_cons, Bool.false_eq_true]
          simpa [hy] using ih ⟨x, hx', hpx⟩
  | false =>
    simp only [updateRows, Bool.false_eq_true, if_false]
    have h1 : (rows.filter (fun r => !p r)).find? p = none := by
      rw [List.find?_eq_none]
      intro x hx
      have := (List.mem_filter.mp hx).2
      simpa using this
    obtain ⟨x, hx, hpx⟩ := hex
    have hmem : x ∈ rows.filter p := List.mem_filter.mpr ⟨hx, hpx⟩
    cases hfl : rows.filter p with
    | nil => rw [hfl] at hmem; exact absurd hmem (List.not_mem_nil _)
    | cons y ys =>
      have hy : p y = true := by
        have : y ∈ rows.filter p := by rw [hfl]; exact List.mem_cons_self _ _
        exact (List.mem_filter.mp this).2
      rw [List.find?_append, h1]
      simp [List.find?, hf y hy, hp]

/-- The half of the update contract that holds: when a row has the requested
id, the store accepts the fields and answers both statements, `updateAuthor`
rewrites the rows with that id and answers 200 with the record re-read from the
store, which has the id and the fields supplied, the birthday as the store
yields it. -/
theorem updateAuthor_existing_answers_record (db : DB) (w : ResponseWriter) (r : Request)
    (c : World) (row : AuthorRow) (d : String) (hw : w.Code = none)
    (hrow : row ∈ c.store.authors) (hid : db.integer (r.Var "id") = some row.id)
    (hd : db.date r.BodyAuthor.Birthday = some d)
    (hf1 : c.faults.head? ≠ some true) (hf2 : c.faults.tail.head? ≠ some true) :
    ∃ c', updateAuthor db w r c = .done (w.Encode (.author
          ⟨row.id, r.BodyAuthor.Name, r.BodyAuthor.Surname, r.BodyAuthor.Biography, d⟩)) c'
      ∧ (w.Encode (.author
          ⟨row.id, r.BodyAuthor.Name, r.BodyAuthor.Surname, r.BodyAuthor.Biography, d⟩)).Status
          = 200
      ∧ c'.store.authors = updateRows db.inPlace (fun x => x.id = row.id)
          (fun x => ⟨x.id, some r.BodyAuthor.Name, some r.BodyAuthor.Surname, some r.BodyAuthor.Biography,
            some d⟩)
          c.store.authors := by
  have hfind := find?_updateRows db.inPlace (fun x : AuthorRow => decide (x.id = row.id))
    (fun x => ⟨x.id, some r.BodyAuthor.Name, some r.BodyAuthor.Surname, some r.BodyAuthor.Biography,
            some d⟩)
    ⟨row.id, some r.BodyAuthor.Name, some r.BodyAuthor.Surname, some r.BodyAuthor.Biography,
      some d⟩
    c.store.authors (by intro x hx; simp only [decide_eq_true_eq] at hx; simp only [hx]) (by simp)
    ⟨row, hrow, by simp⟩
  refine ⟨⟨{ c.store with authors := (updateRows db.inPlace (fun x => x.id = row.id)
      (fun x => ⟨x.id, some r.BodyAuthor.Name, some r.BodyAuthor.Surname, some r.BodyAuthor.Biography,
            some d⟩)
      c.store.authors) }, c.faults.tail.tail⟩, ?_, Encode_Status _ _ hw, ?_⟩
  · simp only [updateAuthor]
    rw [run_through _ _ hf1]
    simp only [updateAuthorRow, hd, hid]
    rw [run_through _ _ hf2]
    simp only [selectAuthor, hid, hfind]
    rfl
  · rfl

/-- The same for `updateBook`: the record answered has the id, the title and
ISBN supplied, and author id and year as the store read them. -/
theorem updateBook_existing_answers_record (db : DB) (w : ResponseWriter) (r : Request)
    (c : World) (row : BookRow) (authorid year : Int) (hw : w.Code = none)
    (hrow : row ∈ c.store.books) (hid : db.integer (r.Var "id") = some row.id)
    (ha : db.integer r.BodyBook.AuthorID = some authorid)
    (hy : db.integer r.BodyBook.Year = some year)
    (hf1 : c.faults.head? ≠ some true) (hf2 : c.faults.tail.head? ≠ some true) :
    ∃ c', updateBook db w r c = .done (w.Encode (.book
          ⟨row.id, r.BodyBook.Title, formatInt authorid, r.BodyBook.ISBN, formatInt year⟩)) c'
      ∧ (w.Encode (.book
          ⟨row.id, r.BodyBook.Title, formatInt authorid, r.BodyBook.ISBN, formatInt year⟩)).Status
          = 200
      ∧ c'.store.books = updateRows db.inPlace (fun x => x.id = row.id)
          (fun x => ⟨x.id, some r.BodyBook.Title, some authorid, some r.BodyBook.ISBN, some year⟩)
          c.store.books := by
  have hfind := find?_updateRows db.inPlace (fun x : BookRow => decide (x.id = row.id))
    (fun x => ⟨x.id, some r.BodyBook.Title, some authorid, some r.BodyBook.ISBN, some year⟩)
    ⟨row.id, some r.BodyBook.Title, some authorid, some r.BodyBook.ISBN, some year⟩
    c.store.books (by intro x hx; simp only [decide_eq_true_eq] at hx; simp only [hx]) (by simp)
    ⟨row, hrow, by simp⟩
  refine ⟨⟨{ c.store with books := (updateRows db.inPlace (fun x => x.id = row.id)
      (fun x => ⟨x.id, some r.BodyBook.Title, some authorid, some r.BodyBook.ISBN, some year⟩)
      c.store.books) }, c.faults.tail.tail⟩, ?_, Encode_Status _ _ hw, ?_⟩
  · simp only [updateBook]
    rw [run_through _ _ hf1]
    simp only [updateBookRow, ha, hy, hid]
    rw [run_through _ _ hf2]
    simp only [selectBook, hid, hfind]
    rfl
  · rfl

end Library
